import Mathlib

/-!
# aria2GoUI: the RPC client and the task aggregator

A shallow embedding of `internal/aria2/client.go` (the JSON-RPC client and its
eleven method bindings) and of the task aggregation and metrics functions of
`internal/ui/app.go` (`getTaskCount`, `getAllTasks`, `parseFloat64`,
`formatSpeed`, `formatSize`, `createTaskItemForData`).

Conventions of the embedding.

* A Go result pair `(T, error)` is a Lean pair `T × Option GoError`; the Go
  `nil` error is `none`. A pointer result is an `Option`, a slice or map result
  is a `List` (the nil slice is `[]`).
* Go `int` is `Int`. No arithmetic is done on the integers that appear here
  apart from adding slice lengths.
* The standard library and the network are not part of the repository. They are
  gathered in a `World`: one function for each library call the client makes.
  Every theorem about the client holds for every `World`.
* Go `float64` is `Float64`: NaN, the two infinities and the finite numbers, each
  a sign and a whole number of units of `2^-1074`. Division rounds to the
  nearest float64, ties to even. The scanning and printing functions of `fmt`
  and `strconv` that the metrics call are written out after the Go sources.
-/

set_option autoImplicit false
set_option linter.dupNamespace false
set_option exponentiation.threshold 5000
set_option maxRecDepth 20000

namespace Aria2GoUI

/-! ## Go values -/

/-- A Go `error` value. The client builds errors only with `fmt.Errorf` and a
format without `%w`, which gives an error holding nothing but its text; all
other errors are made by the standard library and handed on. -/
inductive GoError where
  | lib (pkg : String) (msg : String)
  | errorf (text : String)
  deriving DecidableEq, Repr

deriving instance DecidableEq for Except

/-- The values put in a `[]interface{}` parameter list. -/
inductive Value where
  | null
  | bool (b : Bool)
  | int (n : Int)
  | str (s : String)
  | strs (l : List String)
  | list (l : List Value)
  | map (m : List (String × Value))
  deriving Repr

/-! ## internal/aria2/client.go: types -/

/-- Client: `rpcURL` and `token`. The third field of the Go struct, `client`,
is always a fresh `&http.Client{}`; its `Post` method is `World.Post`. -/
structure Client where
  rpcURL : String
  token : String
  deriving DecidableEq, Repr

/-- RPCRequest (client.go:28-33). -/
structure RPCRequest where
  JSONRPC : String
  Method : String
  Params : List Value
  ID : String
  deriving Repr

/-- RPCError (client.go:44-47). The Go type has no `Error()` method, so it is
not itself an `error` value. -/
structure RPCError where
  Code : Int
  Message : String
  deriving DecidableEq, Repr

/-- RPCResponse (client.go:36-41). `Result` is a `json.RawMessage`: the bytes
of the result, not yet decoded. -/
structure RPCResponse where
  JSONRPC : String
  Result : String
  Error : Option RPCError
  ID : String
  deriving DecidableEq, Repr

/-- Version (client.go:50-53). -/
structure Version where
  Version : String
  EnabledFeatures : List String
  deriving DecidableEq, Repr

/-- URI (client.go:93-96). -/
structure URI where
  Status : String
  URI : String
  deriving DecidableEq, Repr

/-- FileInfo (client.go:83-90). -/
structure FileInfo where
  Index : String
  Path : String
  Length : String
  CompletedLength : String
  Selected : String
  URIs : List URI
  deriving DecidableEq, Repr

/-- BittorrentInfo (client.go:99-107); `InfoName` is the field `Info.Name`. -/
structure BittorrentInfo where
  AnnounceList : List (List String)
  Comment : String
  CreationDate : Int
  Mode : String
  InfoName : String
  deriving DecidableEq, Repr

/-- TellStatus (client.go:56-80). -/
structure TellStatus where
  GID : String := ""
  Status : String := ""
  TotalLength : String := ""
  CompletedLength : String := ""
  UploadLength : String := ""
  Bitfield : String := ""
  DownloadSpeed : String := ""
  UploadSpeed : String := ""
  InfoHash : String := ""
  NumSeeders : Int := 0
  Seeder : String := ""
  PieceLength : String := ""
  NumPieces : Int := 0
  Connections : Int := 0
  ErrorCode : String := ""
  ErrorMessage : String := ""
  FollowedBy : List String := []
  BelongsTo : String := ""
  Dir : String := ""
  Files : List FileInfo := []
  Bittorrent : Option BittorrentInfo := none
  VerifiedLength : String := ""
  VerifyIntegrityPending : String := ""
  deriving DecidableEq, Repr

/-- The response of `http.Client.Post`, as far as the client can see it. -/
structure HTTPResponse where
  StatusCode : Int
  Body : String
  deriving DecidableEq, Repr

/-! ## The standard library and the network -/

/-- The library calls made by client.go, one field each.

* `Marshal request` is `json.Marshal(request)`;
* `Post url contentType data` is `c.client.Post(url, contentType, bytes.NewBuffer(data))`;
* `Decode body` is `json.NewDecoder(resp.Body).Decode(&rpcResponse)` started on
  the zero `RPCResponse`;
* `UnmarshalVersion`, `UnmarshalTasks`, `UnmarshalString`, `UnmarshalStats` are
  `json.Unmarshal(response.Result, &v)` for `v` a `Version`, a `[]TellStatus`,
  a `string` and a `map[string]string`. -/
structure World where
  Marshal : RPCRequest → Except GoError String
  Post : String → String → String → Except GoError HTTPResponse
  Decode : String → Except GoError RPCResponse
  UnmarshalVersion : String → Except GoError Version
  UnmarshalTasks : String → Except GoError (List TellStatus)
  UnmarshalString : String → Except GoError String
  UnmarshalStats : String → Except GoError (List (String × String))

/-! ## internal/aria2/client.go: functions -/

/-- NewClient (client.go:18-25): `fmt.Sprintf("%s://%s:%d%s", protocol, host, port, path)`. -/
def NewClient (host : String) (port : Int) (token : String) (protocol : String)
    (path : String) : Client :=
  let rpcURL := protocol ++ "://" ++ host ++ ":" ++ toString port ++ path
  { rpcURL := rpcURL, token := token }

/-- sendRequest (client.go:371-389). -/
def sendRequest (w : World) (c : Client) (request : RPCRequest) :
    Except GoError RPCResponse :=
  match w.Marshal request with
  | .error err => .error err
  | .ok data =>
    match w.Post c.rpcURL "application/json" data with
    | .error err => .error err
    | .ok resp =>
      match w.Decode resp.Body with
      | .error err => .error err
      | .ok rpcResponse => .ok rpcResponse

/-- The request literal of GetVersion (client.go:111-116). -/
def GetVersionRequest (c : Client) : RPCRequest :=
  { JSONRPC := "2.0", Method := "aria2.getVersion",
    Params := [.str ("token:" ++ c.token)], ID := "1" }

/-- GetVersion (client.go:110-133). -/
def GetVersion (w : World) (c : Client) : Option Version × Option GoError :=
  let request := GetVersionRequest c
  match sendRequest w c request with
  | .error err => (none, some err)
  | .ok response =>
    match response.Error with
    | some e => (none, some (.errorf ("RPC error: " ++ e.Message)))
    | none =>
      match w.UnmarshalVersion response.Result with
      | .error err => (none, some err)
      | .ok version => (some version, none)

/-- The request literal of TellActive (client.go:137-142). -/
def TellActiveRequest (c : Client) : RPCRequest :=
  { JSONRPC := "2.0", Method := "aria2.tellActive",
    Params := [.str ("token:" ++ c.token)], ID := "1" }

/-- TellActive (client.go:136-159). -/
def TellActive (w : World) (c : Client) : List TellStatus × Option GoError :=
  let request := TellActiveRequest c
  match sendRequest w c request with
  | .error err => ([], some err)
  | .ok response =>
    match response.Error with
    | some e => ([], some (.errorf ("RPC error: " ++ e.Message)))
    | none =>
      match w.UnmarshalTasks response.Result with
      | .error err => ([], some err)
      | .ok tasks => (tasks, none)

/-- The request literal of TellWaiting (client.go:163-168). -/
def TellWaitingRequest (c : Client) (offset : Int) (num : Int) : RPCRequest :=
  { JSONRPC := "2.0", Method := "aria2.tellWaiting",
    Params := [.str ("token:" ++ c.token), .int offset, .int num], ID := "1" }

/-- TellWaiting (client.go:162-185). -/
def TellWaiting (w : World) (c : Client) (offset : Int) (num : Int) :
    List TellStatus × Option GoError :=
  let request := TellWaitingRequest c offset num
  match sendRequest w c request with
  | .error err => ([], some err)
  | .ok response =>
    match response.Error with
    | some e => ([], some (.errorf ("RPC error: " ++ e.Message)))
    | none =>
      match w.UnmarshalTasks response.Result with
      | .error err => ([], some err)
      | .ok tasks => (tasks, none)

/-- The request literal of TellStopped (client.go:189-194). -/
def TellStoppedRequest (c : Client) (offset : Int) (num : Int) : RPCRequest :=
  { JSONRPC := "2.0", Method := "aria2.tellStopped",
    Params := [.str ("token:" ++ c.token), .int offset, .int num], ID := "1" }

/-- TellStopped (client.go:188-211). -/
def TellStopped (w : World) (c : Client) (offset : Int) (num : Int) :
    List TellStatus × Option GoError :=
  let request := TellStoppedRequest c offset num
  match sendRequest w c request with
  | .error err => ([], some err)
  | .ok response =>
    match response.Error with
    | some e => ([], some (.errorf ("RPC error: " ++ e.Message)))
    | none =>
      match w.UnmarshalTasks response.Result with
      | .error err => ([], some err)
      | .ok tasks => (tasks, none)

/-- The request literal of AddURI (client.go:215-220). -/
def AddURIRequest (c : Client) (uris : List String) (options : List (String × Value)) :
    RPCRequest :=
  { JSONRPC := "2.0", Method := "aria2.addUri",
    Params := [.str ("token:" ++ c.token), .strs uris, .map options], ID := "1" }

/-- AddURI (client.go:214-237). -/
def AddURI (w : World) (c : Client) (uris : List String) (options : List (String × Value)) :
    String × Option GoError :=
  let request := AddURIRequest c uris options
  match sendRequest w c request with
  | .error err => ("", some err)
  | .ok response =>
    match response.Error with
    | some e => ("", some (.errorf ("RPC error: " ++ e.Message)))
    | none =>
      match w.UnmarshalString response.Result with
      | .error err => ("", some err)
      | .ok gid => (gid, none)

/-- The request literal of Pause (client.go:241-246). -/
def PauseRequest (c : Client) (gid : String) : RPCRequest :=
  { JSONRPC := "2.0", Method := "aria2.pause",
    Params := [.str ("token:" ++ c.token), .str gid], ID := "1" }

/-- Pause (client.go:240-258). -/
def Pause (w : World) (c : Client) (gid : String) : Option GoError :=
  let request := PauseRequest c gid
  match sendRequest w c request with
  | .error err => some err
  | .ok response =>
    match response.Error with
    | some e => some (.errorf ("RPC error: " ++ e.Message))
    | none => none

/-- The request literal of Unpause (client.go:262-267). -/
def UnpauseRequest (c : Client) (gid : String) : RPCRequest :=
  { JSONRPC := "2.0", Method := "aria2.unpause",
    Params := [.str ("token:" ++ c.token), .str gid], ID := "1" }

/-- Unpause (client.go:261-279). -/
def Unpause (w : World) (c : Client) (gid : String) : Option GoError :=
  let request := UnpauseRequest c gid
  match sendRequest w c request with
  | .error err => some err
  | .ok response =>
    match response.Error with
    | some e => some (.errorf ("RPC error: " ++ e.Message))
    | none => none

/-- The request literal of Remove (client.go:283-288). -/
def RemoveRequest (c : Client) (gid : String) : RPCRequest :=
  { JSONRPC := "2.0", Method := "aria2.remove",
    Params := [.str ("token:" ++ c.token), .str gid], ID := "1" }

/-- Remove (client.go:282-300). -/
def Remove (w : World) (c : Client) (gid : String) : Option GoError :=
  let request := RemoveRequest c gid
  match sendRequest w c request with
  | .error err => some err
  | .ok response =>
    match response.Error with
    | some e => some (.errorf ("RPC error: " ++ e.Message))
    | none => none

/-- The request literal of PauseAll (client.go:304-309). -/
def PauseAllRequest (c : Client) : RPCRequest :=
  { JSONRPC := "2.0", Method := "aria2.pauseAll",
    Params := [.str ("token:" ++ c.token)], ID := "1" }

/-- PauseAll (client.go:303-321). -/
def PauseAll (w : World) (c : Client) : Option GoError :=
  let request := PauseAllRequest c
  match sendRequest w c request with
  | .error err => some err
  | .ok response =>
    match response.Error with
    | some e => some (.errorf ("RPC error: " ++ e.Message))
    | none => none

/-- The request literal of UnpauseAll (client.go:325-330). -/
def UnpauseAllRequest (c : Client) : RPCRequest :=
  { JSONRPC := "2.0", Method := "aria2.unpauseAll",
    Params := [.str ("token:" ++ c.token)], ID := "1" }

/-- UnpauseAll (client.go:324-342). -/
def UnpauseAll (w : World) (c : Client) : Option GoError :=
  let request := UnpauseAllRequest c
  match sendRequest w c request with
  | .error err => some err
  | .ok response =>
    match response.Error with
    | some e => some (.errorf ("RPC error: " ++ e.Message))
    | none => none

/-- The request literal of GetGlobalStat (client.go:346-351). -/
def GetGlobalStatRequest (c : Client) : RPCRequest :=
  { JSONRPC := "2.0", Method := "aria2.getGlobalStat",
    Params := [.str ("token:" ++ c.token)], ID := "1" }

/-- GetGlobalStat (client.go:345-368). -/
def GetGlobalStat (w : World) (c : Client) : List (String × String) × Option GoError :=
  let request := GetGlobalStatRequest c
  match sendRequest w c request with
  | .error err => ([], some err)
  | .ok response =>
    match response.Error with
    | some e => ([], some (.errorf ("RPC error: " ++ e.Message)))
    | none =>
      match w.UnmarshalStats response.Result with
      | .error err => ([], some err)
      | .ok stats => (stats, none)

/-- One call of the binding layer: the binding and its arguments. -/
inductive Call where
  | getVersion
  | tellActive
  | tellWaiting (offset : Int) (num : Int)
  | tellStopped (offset : Int) (num : Int)
  | addURI (uris : List String) (options : List (String × Value))
  | pause (gid : String)
  | unpause (gid : String)
  | remove (gid : String)
  | pauseAll
  | unpauseAll
  | getGlobalStat

/-- The request a call hands to `sendRequest`. -/
def Call.request (c : Client) : Call → RPCRequest
  | .getVersion => GetVersionRequest c
  | .tellActive => TellActiveRequest c
  | .tellWaiting offset num => TellWaitingRequest c offset num
  | .tellStopped offset num => TellStoppedRequest c offset num
  | .addURI uris options => AddURIRequest c uris options
  | .pause gid => PauseRequest c gid
  | .unpause gid => UnpauseRequest c gid
  | .remove gid => RemoveRequest c gid
  | .pauseAll => PauseAllRequest c
  | .unpauseAll => UnpauseAllRequest c
  | .getGlobalStat => GetGlobalStatRequest c

/-- The error a call returns (`none` for Go `nil`). -/
def Call.err (w : World) (c : Client) : Call → Option GoError
  | .getVersion => (GetVersion w c).2
  | .tellActive => (TellActive w c).2
  | .tellWaiting offset num => (TellWaiting w c offset num).2
  | .tellStopped offset num => (TellStopped w c offset num).2
  | .addURI uris options => (AddURI w c uris options).2
  | .pause gid => Pause w c gid
  | .unpause gid => Unpause w c gid
  | .remove gid => Remove w c gid
  | .pauseAll => PauseAll w c
  | .unpauseAll => UnpauseAll w c
  | .getGlobalStat => (GetGlobalStat w c).2

/-- Whether the result a call returns beside its error is the zero value of its
type: `nil` for a pointer, slice or map, `""` for a string. The five bindings
that return only an error have no result. -/
def Call.zeroResult (w : World) (c : Client) : Call → Bool
  | .getVersion => (GetVersion w c).1 == none
  | .tellActive => (TellActive w c).1 == []
  | .tellWaiting offset num => (TellWaiting w c offset num).1 == []
  | .tellStopped offset num => (TellStopped w c offset num).1 == []
  | .addURI uris options => (AddURI w c uris options).1 == ""
  | .pause _ => true
  | .unpause _ => true
  | .remove _ => true
  | .pauseAll => true
  | .unpauseAll => true
  | .getGlobalStat => (GetGlobalStat w c).1 == []

/-! ## internal/ui/app.go: the task aggregator -/

/-- RPCConfig (config.go:21-29). -/
structure RPCConfig where
  Host : String
  Port : Int
  Token : String
  Path : String
  Protocol : String
  AutoReconnect : Bool
  Timeout : Int
  deriving DecidableEq, Repr

/-- App (app.go:19-24), without the two toolkit handles; of the configuration
only the `RPC` section is kept. `aria2Client` is `none` for a nil pointer. -/
structure App where
  config : RPCConfig
  aria2Client : Option Client
  deriving DecidableEq, Repr

/-- getTaskCount (app.go:160-184). -/
def getTaskCount (w : World) (a : App) : Int :=
  match a.aria2Client with
  | none => 0
  | some client =>
    match TellActive w client with
    | (_, some _) => 0
    | (activeTasks, none) =>
      match TellWaiting w client 0 1000 with
      | (_, some _) => activeTasks.length
      | (waitingTasks, none) =>
        match TellStopped w client 0 100 with
        | (_, some _) => activeTasks.length + waitingTasks.length
        | (stoppedTasks, none) =>
          activeTasks.length + waitingTasks.length + stoppedTasks.length

/-- getAllTasks (app.go:187-210). -/
def getAllTasks (w : World) (a : App) : List TellStatus :=
  match a.aria2Client with
  | none => []
  | some client =>
    let allTasks : List TellStatus := []
    let allTasks :=
      match TellActive w client with
      | (activeTasks, none) => allTasks ++ activeTasks
      | (_, some _) => allTasks
    let allTasks :=
      match TellWaiting w client 0 1000 with
      | (waitingTasks, none) => allTasks ++ waitingTasks
      | (_, some _) => allTasks
    let allTasks :=
      match TellStopped w client 0 100 with
      | (stoppedTasks, none) => allTasks ++ stoppedTasks
      | (_, some _) => allTasks
    allTasks

/-- What one sub-fetch adds to the aggregate: its records when it succeeded,
nothing when it returned an error. -/
def fetched (r : List TellStatus × Option GoError) : List TellStatus :=
  match r with
  | (tasks, none) => tasks
  | (_, some _) => []

/-! ## Test doubles

A `World` built from literal JSON texts, standing for an aria2 engine behind an
HTTP endpoint. Each table entry pairs a text with the value the Go library
makes of it; texts outside the tables are answered with an error. -/

/-- The text of a JSON object with the given members. -/
def obj (members : String) : String :=
  "\x7b" ++ members ++ "\x7d"

/-- The text of a request as `json.Marshal` writes it, from its method and the
text of its parameters. -/
def requestText (method : String) (params : String) : String :=
  obj ("\"jsonrpc\":\"2.0\",\"method\":\"" ++ method ++ "\",\"params\":[" ++ params
    ++ "],\"id\":\"1\"")

/-- Whether `json.Marshal` writes the string between quotes as it is: letters,
digits and a few marks that it never escapes. -/
def plain (s : String) : Bool :=
  s.data.all fun ch => ch.isAlphanum || ch == ':' || ch == '/' || ch == '.' || ch == '-' || ch == '_'

/-- The text of one parameter; only values whose text needs no escaping and no
recursion are covered. -/
def paramText : Value → Option String
  | .str s => if plain s then some ("\"" ++ s ++ "\"") else none
  | .int n => some (toString n)
  | .bool true => some "true"
  | .bool false => some "false"
  | .null => some "null"
  | .strs l =>
    if l.all plain then some ("[" ++ ",".intercalate (l.map fun s => "\"" ++ s ++ "\"") ++ "]")
    else none
  | .list [] => some "[]"
  | .map [] => some (obj "")
  | _ => none

/-- A double of `json.Marshal` on requests: the text Go writes for the requests
it covers, an error for the others. -/
def stubMarshal (request : RPCRequest) : Except GoError String :=
  if request.JSONRPC = "2.0" ∧ request.ID = "1" ∧ plain request.Method then
    match request.Params.mapM paramText with
    | some ps => .ok (requestText request.Method (",".intercalate ps))
    | none => .error (.lib "encoding/json" "value outside the double")
  else .error (.lib "encoding/json" "request outside the double")

/-- The text of a success response carrying the given result text. -/
def okBody (result : String) : String :=
  obj ("\"id\":\"1\",\"jsonrpc\":\"2.0\",\"result\":" ++ result)

/-- The text of a response carrying only an error descriptor, such as
`{"error":{"code":1,"message":"task not found"}}`. -/
def errBody (e : RPCError) : String :=
  obj ("\"error\":" ++ obj ("\"code\":" ++ toString e.Code ++ ",\"message\":\""
    ++ e.Message ++ "\""))

/-- The text of an array of task records that carry only a `gid`. -/
def tasksText (gids : List String) : String :=
  "[" ++ ",".intercalate (gids.map fun g => obj ("\"gid\":\"" ++ g ++ "\"")) ++ "]"

/-- The task record decoded from `{"gid":g}`: every other field is zero. -/
def taskOf (g : String) : TellStatus :=
  { GID := g }

/-- The gid lists the doubles know. -/
def stubGidLists : List (List String) :=
  [[], ["a1"], ["a1", "a2"], ["w1"], ["a1", "w1"], ["s1"], ["s1", "s2", "s3"]]

/-- The result texts the doubles know: the task arrays and the string `"OK"`. -/
def stubResults : List String :=
  stubGidLists.map tasksText ++ ["\"OK\"", "\"2089b05ecca3d829\""]

/-- The error descriptors the doubles know. -/
def stubErrors : List RPCError :=
  [⟨1, "task not found"⟩, ⟨2, "task not found"⟩]

/-- A double of `json.NewDecoder(body).Decode(&rpcResponse)`. -/
def stubDecode (body : String) : Except GoError RPCResponse :=
  match stubResults.find? (fun r => okBody r == body) with
  | some r => .ok { JSONRPC := "2.0", Result := r, Error := none, ID := "1" }
  | none =>
    match stubErrors.find? (fun e => errBody e == body) with
    | some e => .ok { JSONRPC := "", Result := "", Error := some e, ID := "" }
    | none => .error (.lib "encoding/json" "invalid character")

/-- A double of `json.Unmarshal(raw, &tasks)` for `tasks` a `[]TellStatus`. -/
def stubTasks (raw : String) : Except GoError (List TellStatus) :=
  match stubGidLists.find? (fun gids => tasksText gids == raw) with
  | some gids => .ok (gids.map taskOf)
  | none => .error (.lib "encoding/json" "cannot unmarshal into []TellStatus")

/-- A double of `json.Unmarshal(raw, &gid)` for `gid` a `string`. -/
def stubString (raw : String) : Except GoError String :=
  if raw = "\"OK\"" then .ok "OK"
  else if raw = "\"2089b05ecca3d829\"" then .ok "2089b05ecca3d829"
  else .error (.lib "encoding/json" "cannot unmarshal into string")

/-- The world of an endpoint that answers the posted text `data` with
`respond data`. -/
def stubWorld (respond : String → Except GoError HTTPResponse) : World :=
  { Marshal := stubMarshal
    Post := fun _ _ data => respond data
    Decode := stubDecode
    UnmarshalVersion := fun _ => .error (.lib "encoding/json" "cannot unmarshal into Version")
    UnmarshalTasks := stubTasks
    UnmarshalString := stubString
    UnmarshalStats := fun _ =>
      .error (.lib "encoding/json" "cannot unmarshal into map[string]string") }

/-- The error of a dropped connection. -/
def connReset : GoError :=
  .lib "net/http" "connection reset by peer"

/-- An endpoint for the three list calls of a client with the empty secret:
each list call is answered with the given task array, or dropped when no gid
list is given; every other request is dropped. -/
def listEndpoint (active waiting stopped : Option (List String)) (data : String) :
    Except GoError HTTPResponse :=
  let answer (gids : Option (List String)) : Except GoError HTTPResponse :=
    match gids with
    | some g => .ok { StatusCode := 200, Body := okBody (tasksText g) }
    | none => .error connReset
  if data = requestText "aria2.tellActive" "\"token:\"" then answer active
  else if data = requestText "aria2.tellWaiting" "\"token:\",0,1000" then answer waiting
  else if data = requestText "aria2.tellStopped" "\"token:\",0,100" then answer stopped
  else .error connReset

/-- A client with the empty secret. -/
def localClient : Client :=
  NewClient "localhost" 6800 "" "http" "/jsonrpc"

/-- An App with the default RPC configuration (config.go:90-98), connected
through `localClient`. -/
def localApp : App :=
  { config := { Host := "localhost", Port := 6800, Token := "", Path := "/jsonrpc",
                Protocol := "http", AutoReconnect := true, Timeout := 30 }
    aria2Client := some localClient }

/-- The endpoint of the aggregator scenario: two active records, the waiting
fetch dropped, three stopped records. -/
def scenarioWorld : World :=
  stubWorld (listEndpoint (some ["a1", "a2"]) none (some ["s1", "s2", "s3"]))

/-- An endpoint whose active fetch is dropped while the waiting and stopped
fetches answer with one record each. -/
def activeDownWorld : World :=
  stubWorld (listEndpoint none (some ["w1"]) (some ["s1"]))

/-- An endpoint on which the gid `a1` is reported both as active and as waiting. -/
def overlapWorld : World :=
  stubWorld (listEndpoint (some ["a1"]) (some ["a1", "w1"]) (some ["s1"]))

/-- An endpoint that answers every request with HTTP 400 and the body
`{"error":{"code":<code>,"message":"task not found"}}`. -/
def notFoundWorld (code : Int) : World :=
  stubWorld fun _ =>
    .ok { StatusCode := 400, Body := errBody { Code := code, Message := "task not found" } }

/-- An endpoint that drops every connection. -/
def downWorld : World :=
  stubWorld fun _ => .error connReset

/-- An endpoint that answers every request with the given HTTP status and a
body holding the result `"OK"` and no error descriptor. -/
def statusWorld (status : Int) : World :=
  stubWorld fun _ => .ok { StatusCode := status, Body := okBody "\"OK\"" }

/-- The method name the engine expects for each operation, as the wire protocol
lists them. -/
def Call.methodName : Call → String
  | .getVersion => "aria2.getVersion"
  | .tellActive => "aria2.tellActive"
  | .tellWaiting _ _ => "aria2.tellWaiting"
  | .tellStopped _ _ => "aria2.tellStopped"
  | .addURI _ _ => "aria2.addUri"
  | .pause _ => "aria2.pause"
  | .unpause _ => "aria2.unpause"
  | .remove _ => "aria2.remove"
  | .pauseAll => "aria2.pauseAll"
  | .unpauseAll => "aria2.unpauseAll"
  | .getGlobalStat => "aria2.getGlobalStat"

/-! ## float64 -/

/-- A float64 value. A finite value is a sign and a magnitude counted in units
of `2^-1074`, the smallest positive float64: every finite float64 is a whole
number of these units, below `2^2098` of them (that is, below `2^1024`). The two
zeros are `fin false 0` and `fin true 0`. -/
inductive Float64 where
  | nan
  | inf (neg : Bool)
  | fin (neg : Bool) (units : Nat)
  deriving DecidableEq, Repr

/-- The number of units in 1. -/
def Float64.one : Nat := 2 ^ 1074

/-- The first magnitude, in units, that is too large for a finite float64. -/
def Float64.overflow : Nat := 2 ^ 2098

/-- The float64 of a natural number that a float64 holds exactly (any number
below `2^53`, and the powers of two used as thresholds). -/
def Float64.ofNat (n : Nat) : Float64 :=
  .fin false (n * Float64.one)

/-- The least `k` from the given one on with `n < 2 ^ (2 ^ k)`, looked for in
`fuel` steps. -/
def log2Level : Nat → Nat → Nat → Nat
  | 0, k, _ => k
  | fuel + 1, k, n => if n < 2 ^ (2 ^ k) then k else log2Level fuel (k + 1) n

/-- Bisection for the binary logarithm: with `2 ^ lo ≤ n < 2 ^ (lo + 2 ^ i)`, the
`e` with `2 ^ e ≤ n < 2 ^ (e + 1)`. -/
def log2Search : Nat → Nat → Nat → Nat
  | 0, lo, _ => lo
  | i + 1, lo, n => if 2 ^ (lo + 2 ^ i) ≤ n then log2Search i (lo + 2 ^ i) n else log2Search i lo n

/-- The number of binary digits of `n` (0 for 0). -/
def bitLength (n : Nat) : Nat :=
  if n = 0 then 0 else log2Search (log2Level n 0 n) 0 n + 1

/-- The integer nearest to `n / d`, the even one of the two on a tie. -/
def roundHalfEven (n d : Nat) : Nat :=
  let q := n / d
  let r := n % d
  if 2 * r < d then q else if d < 2 * r then q + 1 else if q % 2 = 0 then q else q + 1

/-- The magnitude `n / d`, given in units, rounded to the nearest magnitude a
float64 can hold: a whole number of units with at most 53 significant binary
digits, ties to the even one. -/
def roundUnits (n d : Nat) : Nat :=
  let u := n / d
  if u < 2 ^ 53 then roundHalfEven n d
  else
    let s := bitLength u - 53
    roundHalfEven n (d * 2 ^ s) * 2 ^ s

/-- The float64 nearest to the real number `± n / d`, infinite when that is
beyond the largest finite float64. -/
def Float64.ofRatio (neg : Bool) (n d : Nat) : Float64 :=
  let r := roundUnits (n * Float64.one) d
  if r < Float64.overflow then .fin neg r else .inf neg

/-- The Go operator `/` on float64. -/
def Float64.div : Float64 → Float64 → Float64
  | .nan, _ => .nan
  | _, .nan => .nan
  | .inf _, .inf _ => .nan
  | .inf a, .fin b _ => .inf (a != b)
  | .fin a _, .inf b => .fin (a != b) 0
  | .fin a x, .fin b y =>
    if y = 0 then (if x = 0 then .nan else .inf (a != b))
    else Float64.ofRatio (a != b) x y

/-- A finite magnitude with its sign, in units, as an integer. -/
def Float64.signed (neg : Bool) (units : Nat) : Int :=
  if neg then -(units : Int) else units

/-- The Go operator `<` on float64. -/
def Float64.lt : Float64 → Float64 → Bool
  | .nan, _ => false
  | _, .nan => false
  | .inf a, .inf b => a && !b
  | .inf a, .fin _ _ => a
  | .fin _ _, .inf b => !b
  | .fin a x, .fin b y => decide (Float64.signed a x < Float64.signed b y)

/-- The Go operator `<=` on float64. -/
def Float64.le : Float64 → Float64 → Bool
  | .nan, _ => false
  | _, .nan => false
  | .inf a, .inf b => a || !b
  | .inf a, .fin _ _ => a
  | .fin _ _, .inf b => !b
  | .fin a x, .fin b y => decide (Float64.signed a x ≤ Float64.signed b y)

/-- The decimal digits of `n` in a field of exactly `width` digits (the low
`width` digits, with leading zeros). -/
def fixedDigits : Nat → Nat → List Char
  | 0, _ => []
  | width + 1, n => fixedDigits width (n / 10) ++ [Char.ofNat (48 + n % 10)]

/-- The text `strconv.FormatFloat(x, 'f', prec, 64)` as `fmt` prints it for the
verb `%.<prec>f` without flags: the exact value rounded to `prec` decimals, ties
to even, with a minus sign for a negative float64. -/
def fmtFixed (prec : Nat) : Float64 → String
  | .nan => "NaN"
  | .inf false => "+Inf"
  | .inf true => "-Inf"
  | .fin neg u =>
    let i := roundHalfEven (u * 10 ^ prec) Float64.one
    let whole := toString (i / 10 ^ prec)
    let body := if prec = 0 then whole
      else whole ++ "." ++ String.mk (fixedDigits prec (i % 10 ^ prec))
    (if neg then "-" else "") ++ body

/-! ## fmt.Sscanf with the verb %f, and strconv.ParseFloat

The scanner of the Go standard library, as far as `parseFloat64` runs it. Texts
are lists of characters; the texts the scanner hands to `strconv` hold ASCII
characters only. -/

/-- The function `isSpace` of fmt/scan.go. -/
def isSpace (r : Char) : Bool :=
  let n := r.toNat
  (0x09 ≤ n && n ≤ 0x0d) || n == 0x20 || n == 0x85 || n == 0xa0 || n == 0x1680 ||
    (0x2000 ≤ n && n ≤ 0x200a) || n == 0x2028 || n == 0x2029 || n == 0x202f ||
    n == 0x205f || n == 0x3000

/-- The method `SkipSpace` of fmt/scan.go for `Sscanf`, where a newline is not
a space: the input after the leading spaces, or `none` for the error
"unexpected newline". -/
def skipSpace : List Char → Option (List Char)
  | [] => some []
  | r :: rest =>
    if r = '\r' ∧ rest.head? = some '\n' then skipSpace rest
    else if r = '\n' then none
    else if isSpace r then skipSpace rest
    else some (r :: rest)

/-- The state of the scanner while it collects a token: the characters accepted
so far and the input left. -/
structure Scanner where
  buf : List Char
  rest : List Char
  deriving DecidableEq, Repr

/-- The method `accept` of fmt/scan.go: take the next character into the token
when it is one of `ok`. -/
def Scanner.accept (s : Scanner) (ok : String) : Bool × Scanner :=
  match s.rest with
  | [] => (false, s)
  | r :: rest =>
    if ok.data.contains r then (true, { buf := s.buf ++ [r], rest := rest }) else (false, s)

/-- The condition `s.accept(a) && s.accept(b) && s.accept(c)`: what an accepted
character adds to the token stays there when a later one is refused. -/
def Scanner.accept3 (s : Scanner) (a b c : String) : Bool × Scanner :=
  let first := s.accept a
  if first.1 then
    let second := first.2.accept b
    if second.1 then second.2.accept c else (false, second.2)
  else (false, first.2)

/-- The loop `for s.accept(ok) {}`. -/
def Scanner.acceptAll (s : Scanner) (ok : String) : Scanner :=
  { buf := s.buf ++ s.rest.takeWhile (fun r => ok.data.contains r),
    rest := s.rest.dropWhile (fun r => ok.data.contains r) }

/-- The constant `decimalDigits` of fmt/scan.go. -/
def decimalDigits : String := "0123456789"

/-- The constant `hexadecimalDigits` of fmt/scan.go. -/
def hexadecimalDigits : String := "0123456789aAbBcCdDeEfF"

/-- The end of `floatToken`: digits, then a point with more digits, then an
exponent mark with a sign and decimal digits, each part optional. -/
def Scanner.digitsToken (s : Scanner) (digits : String) (exp : String) : List Char :=
  -- digits?
  let s := s.acceptAll digits
  -- decimal point? fraction?
  let point := s.accept "."
  let s := if point.1 then point.2.acceptAll digits else point.2
  -- exponent? leading sign? digits?
  let e := s.accept exp
  let s := if e.1 then (e.2.accept "+-").2.acceptAll (decimalDigits ++ "_") else e.2
  s.buf

/-- The part of `floatToken` after the spellings of NaN and Inf: after `0x` or
`0X` the digits are hexadecimal and the exponent mark is `p`. -/
def Scanner.numberToken (s : Scanner) : List Char :=
  let zero := s.accept "0"
  let x := if zero.1 then zero.2.accept "xX" else (false, zero.2)
  if x.1 then x.2.digitsToken (hexadecimalDigits ++ "_") "pP"
  else x.2.digitsToken (decimalDigits ++ "_") "eEpP"

/-- The method `floatToken` of fmt/scan.go: the longest text at the head of the
input that has the outline of a floating-point number. -/
def floatToken (input : List Char) : List Char :=
  -- NaN?
  let nan := Scanner.accept3 { buf := [], rest := input } "nN" "aA" "nN"
  if nan.1 then nan.2.buf else
  -- leading sign? Inf?
  let inf := (nan.2.accept "+-").2.accept3 "iI" "nN" "fF"
  if inf.1 then inf.2.buf else
  inf.2.numberToken

/-- The byte `c` in lower case, as strconv maps an ASCII letter. -/
def lowerASCII (c : Char) : Char :=
  if 'A' ≤ c ∧ c ≤ 'Z' then Char.ofNat (c.toNat + 32) else c

/-- The function `commonPrefixLenIgnoreCase` of strconv/atof.go; `pat` is in
lower case. -/
def commonPrefixLenIgnoreCase : List Char → List Char → Nat
  | c :: s, p :: pat => if lowerASCII c = p then commonPrefixLenIgnoreCase s pat + 1 else 0
  | _, _ => 0

/-- The infinity case of `special`: the value and the number of characters
used, for the text after the sign. -/
def specialInf (neg : Bool) (nsign : Nat) (s : List Char) : Option (Float64 × Nat) :=
  let n := commonPrefixLenIgnoreCase s "infinity".data
  let n := if 3 < n ∧ n < 8 then 3 else n
  if n = 3 ∨ n = 8 then some (.inf neg, nsign + n) else none

/-- The function `special` of strconv/atof.go: the spellings of infinity and
NaN. -/
def special (s : List Char) : Option (Float64 × Nat) :=
  match s with
  | [] => none
  | c :: rest =>
    if c = '+' then specialInf false 1 rest
    else if c = '-' then specialInf true 1 rest
    else if c = 'i' ∨ c = 'I' then specialInf false 0 s
    else if c = 'n' ∨ c = 'N' then
      (if commonPrefixLenIgnoreCase s "nan".data = 3 then some (.nan, 3) else none)
    else none

/-- Whether `c` is one of the digits 0 to 9. -/
def isDecimalDigit (c : Char) : Bool :=
  '0' ≤ c && c ≤ '9'

/-- The value of a digit: decimal, or hexadecimal when `hex`. -/
def digitValue (hex : Bool) (c : Char) : Option Nat :=
  if isDecimalDigit c then some (c.toNat - 48)
  else if hex ∧ 'a' ≤ lowerASCII c ∧ lowerASCII c ≤ 'f' then some (c.toNat % 32 + 9)
  else none

/-- What the digit loop of `readFloat` has read. -/
structure Mantissa where
  sawdot : Bool := false
  sawdigits : Bool := false
  underscores : Bool := false
  value : Nat := 0
  fraction : Nat := 0
  deriving DecidableEq, Repr

/-- The digit loop of `readFloat` (strconv/atof.go): digits, underscores and at
most one point; `value` is the number the digits spell without the point and
`fraction` the number of digits after the point. -/
def readMantissa (hex : Bool) : Mantissa → List Char → Mantissa × List Char
  | m, [] => (m, [])
  | m, c :: cs =>
    if c = '_' then readMantissa hex { m with underscores := true } cs
    else if c = '.' then
      (if m.sawdot then (m, c :: cs) else readMantissa hex { m with sawdot := true } cs)
    else
      match digitValue hex c with
      | some v =>
        readMantissa hex
          { m with sawdigits := true, value := m.value * (if hex then 16 else 10) + v,
                   fraction := if m.sawdot then m.fraction + 1 else m.fraction } cs
      | none => (m, c :: cs)

/-- The exponent digits of `readFloat`: digits and underscores; the exponent
stops growing once it has reached 10000. -/
def readExponent : Nat → Bool → List Char → Nat × Bool × List Char
  | e, us, [] => (e, us, [])
  | e, us, c :: cs =>
    if c = '_' then readExponent e true cs
    else if isDecimalDigit c then
      readExponent (if e < 10000 then e * 10 + (c.toNat - 48) else e) us cs
    else (e, us, c :: cs)

/-- The loop of `underscoreOK` (strconv/atoi.go): `saw` is the kind of the last
character, `'0'` for a digit, `'_'` for an underscore, `'!'` for another one
and `'^'` at the start. -/
def underscoreScan (hex : Bool) : Char → List Char → Bool
  | saw, [] => saw != '_'
  | saw, c :: cs =>
    if isDecimalDigit c ∨ (hex ∧ 'a' ≤ lowerASCII c ∧ lowerASCII c ≤ 'f') then
      underscoreScan hex '0' cs
    else if c = '_' then (if saw != '0' then false else underscoreScan hex '_' cs)
    else if saw = '_' then false
    else underscoreScan hex '!' cs

/-- The function `underscoreOK` of strconv/atoi.go. -/
def underscoreOK (s : List Char) : Bool :=
  let s := match s with
    | c :: rest => if c = '-' ∨ c = '+' then rest else s
    | [] => s
  match s with
  | c0 :: c1 :: rest =>
    if c0 = '0' ∧ (lowerASCII c1 = 'b' ∨ lowerASCII c1 = 'o' ∨ lowerASCII c1 = 'x') then
      underscoreScan (lowerASCII c1 == 'x') '0' rest
    else underscoreScan false '^' s
  | _ => underscoreScan false '^' s

/-- The float64 nearest to `± value * base ^ exp`, where the base is 10, or 2
when `binary`; `none` when it is beyond the largest finite float64 (the range
error of strconv). -/
def Float64.ofScaled (neg : Bool) (binary : Bool) (value : Nat) (exp : Int) : Option Float64 :=
  let b := if binary then 2 else 10
  let r := if 0 ≤ exp then roundUnits (value * b ^ exp.toNat * Float64.one) 1
    else roundUnits (value * Float64.one) (b ^ (-exp).toNat)
  if r < Float64.overflow then some (.fin neg r) else none

/-- The sign at the head of a number: whether it is a minus sign, and the text
after it. -/
def readSign (s : List Char) : Bool × List Char :=
  match s with
  | c :: rest => if c = '+' then (false, rest) else if c = '-' then (true, rest) else (false, s)
  | [] => (false, s)

/-- The base prefix of `readFloat`: a text of at least three characters that
starts with `0x` or `0X` is hexadecimal, and its digits start after the
prefix. -/
def readBase (body : List Char) : Bool × List Char :=
  match body with
  | c0 :: c1 :: c2 :: rest =>
    if c0 = '0' ∧ lowerASCII c1 = 'x' then (true, c2 :: rest) else (false, body)
  | _ => (false, body)

/-- The function `readFloat` of strconv/atof.go after the sign, for a number
that takes up the whole text `body` of the signed text `s`: whether it is
hexadecimal, the number its digits spell and its exponent, of 2 for a
hexadecimal number and of 10 for a decimal one; `none` for a syntax error. -/
def readMagnitude (s : List Char) (body : List Char) : Option (Bool × Nat × Int) :=
  let (hex, digits) := readBase body
  let (m, rest) := readMantissa hex {} digits
  if !m.sawdigits then none else
  let expChar := if hex then 'p' else 'e'
  match rest with
  | c :: rest1 =>
    if lowerASCII c = expChar then
      let (esign, rest2) := readSign rest1
      match rest2 with
      | d :: _ =>
        if isDecimalDigit d then
          let (e, us, rest3) := readExponent 0 m.underscores rest2
          if rest3 ≠ [] then none
          else if us ∧ !underscoreOK s then none
          else
            let exp : Int := if esign then -Int.ofNat e else Int.ofNat e
            if hex then some (true, m.value, exp - 4 * Int.ofNat m.fraction)
            else some (false, m.value, exp - Int.ofNat m.fraction)
        else none
      | [] => none
    else none
  | [] =>
    if hex then none
    else if m.underscores ∧ !underscoreOK s then none
    else some (false, m.value, -Int.ofNat m.fraction)

/-- The functions `readFloat` and `atof64` of strconv/atof.go on a text without
the spellings of `special`: the float64 nearest to a decimal or hexadecimal
number that takes up the whole text, `none` for a syntax error or a range
error. -/
def readFloat (s : List Char) : Option Float64 :=
  let (neg, body) := readSign s
  match readMagnitude s body with
  | none => none
  | some (binary, value, exp) => Float64.ofScaled neg binary value exp

/-- The function `strconv.ParseFloat(s, 64)`: the value when `s` is a
well-formed number within range, `none` when it returns an error. -/
def ParseFloat (s : List Char) : Option Float64 :=
  match special s with
  | some (v, n) => if n = s.length then some v else none
  | none => readFloat s

/-- The natural number that a text of decimal digits spells. -/
def decimalValue (digits : List Char) : Nat :=
  digits.foldl (fun (acc : Nat) (c : Char) => acc * 10 + (c.toNat - 48)) 0

/-- The function `strconv.Atoi`, on a 64-bit platform: an optional sign and
decimal digits, within the range of `int`; `none` when it returns an error. -/
def Atoi (s : List Char) : Option Int :=
  let (neg, digits) := readSign s
  if digits = [] ∨ !digits.all isDecimalDigit then none
  else
    let n := decimalValue digits
    if neg then (if n ≤ 2 ^ 63 then some (-Int.ofNat n) else none)
    else (if n < 2 ^ 63 then some (Int.ofNat n) else none)

/-- An integer as the 64-bit `int` arithmetic of the machine keeps it. -/
def wrapInt64 (z : Int) : Int :=
  (z + 2 ^ 63) % 2 ^ 64 - 2 ^ 63

/-- The function `math.Ldexp(frac, exp)`, the float64 nearest to
`frac * 2 ^ exp`; the exponent of the result is computed in `int`. -/
def Ldexp (frac : Float64) (exp : Int) : Float64 :=
  match frac with
  | .nan => .nan
  | .inf neg => .inf neg
  | .fin neg u =>
    if u = 0 then .fin neg 0
    else
      let e := wrapInt64 (exp + (Int.ofNat (bitLength u) - 1 - 1074))
      if e < -1075 then .fin neg 0
      else if e > 1023 then .inf neg
      else if 0 ≤ exp then .fin neg (roundUnits (u * 2 ^ exp.toNat) 1)
      else .fin neg (roundUnits u (2 ^ (-exp).toNat))

/-- The method `convertFloat` of fmt/scan.go: the float64 of a token, `none`
when it raises an error. A token with a `p` and no `x` is a decimal number with
a binary exponent, which `convertFloat` puts together itself. -/
def convertFloat (str : List Char) : Option Float64 :=
  if str.contains 'p' ∧ !(str.contains 'x' ∨ str.contains 'X') then
    match ParseFloat (str.takeWhile (· != 'p')) with
    | none => none
    | some f =>
      match Atoi ((str.dropWhile (· != 'p')).drop 1) with
      | none => none
      | some m => some (Ldexp f m)
  else ParseFloat str

/-- The call `fmt.Sscanf(s, "%f", &result)`: the value stored in `result`, or
`none` when the call returns an error and stores nothing. -/
def Sscanf (s : String) : Option Float64 :=
  match skipSpace s.data with
  | none => none
  | some [] => none
  | some rest => convertFloat (floatToken rest)

/-- The sign bit of a float64, as `math.Signbit` reads it from a number; NaN is
taken without a sign. -/
def Float64.signbit : Float64 → Bool
  | .nan => false
  | .inf neg => neg
  | .fin neg _ => neg

/-- Whether a text starts with a spelling of NaN or of infinity, in any letter
case: `nan`, `inf`, `+inf` or `-inf`. -/
def spellsNaNOrInf (l : List Char) : Bool :=
  match l.map lowerASCII with
  | 'n' :: 'a' :: 'n' :: _ => true
  | 'i' :: 'n' :: 'f' :: _ => true
  | '+' :: 'i' :: 'n' :: 'f' :: _ => true
  | '-' :: 'i' :: 'n' :: 'f' :: _ => true
  | _ => false

/-- Whether a text without sign starts as a number does: with a decimal digit,
or with a point and a decimal digit. -/
def startsDigits (body : List Char) : Bool :=
  match body with
  | [] => false
  | c :: rest =>
    if c = '.' then
      match rest with
      | [] => false
      | d :: _ => isDecimalDigit d
    else isDecimalDigit c

/-- Whether a text starts with a number: an optional sign, then a decimal
digit, or a point and a decimal digit. -/
def startsNumber (l : List Char) : Bool :=
  startsDigits (readSign l).2

/-- Whether a text, after its leading blanks, starts with a number or with a
spelling of NaN or of infinity. -/
def startsValue (s : String) : Bool :=
  match skipSpace s.data with
  | some rest => spellsNaNOrInf rest || startsNumber rest
  | none => false

/-! ## internal/ui/app.go: the metrics -/

/-- parseFloat64 (app.go:334-338). -/
def parseFloat64 (s : String) : Float64 :=
  let result : Float64 := .fin false 0
  match Sscanf s with
  | some v => v
  | none => result

/-- formatSpeed (app.go:341-351); `fmt.Sprintf("%.0f B/s", x)` is the text of
`x` for the verb followed by the rest of the format. -/
def formatSpeed (bytesPerSec : Float64) : String :=
  if bytesPerSec.lt (Float64.ofNat 1024) then
    fmtFixed 0 bytesPerSec ++ " B/s"
  else if bytesPerSec.lt (Float64.ofNat (1024 * 1024)) then
    fmtFixed 1 (bytesPerSec.div (Float64.ofNat 1024)) ++ " KB/s"
  else if bytesPerSec.lt (Float64.ofNat (1024 * 1024 * 1024)) then
    fmtFixed 1 (bytesPerSec.div (Float64.ofNat (1024 * 1024))) ++ " MB/s"
  else
    fmtFixed 2 (bytesPerSec.div (Float64.ofNat (1024 * 1024 * 1024))) ++ " GB/s"

/-- formatSize (app.go:354-364). -/
def formatSize (bytes : Float64) : String :=
  if bytes.lt (Float64.ofNat 1024) then
    fmtFixed 0 bytes ++ " B"
  else if bytes.lt (Float64.ofNat (1024 * 1024)) then
    fmtFixed 1 (bytes.div (Float64.ofNat 1024)) ++ " KB"
  else if bytes.lt (Float64.ofNat (1024 * 1024 * 1024)) then
    fmtFixed 1 (bytes.div (Float64.ofNat (1024 * 1024))) ++ " MB"
  else
    fmtFixed 2 (bytes.div (Float64.ofNat (1024 * 1024 * 1024))) ++ " GB"

/-- What createTaskItemForData puts in the widgets of a task item: the texts of
the name, status, speed and size labels and the value of the progress bar. -/
structure TaskItem where
  name : String
  status : String
  progress : Float64
  speedText : String
  sizeText : String
  deriving DecidableEq, Repr

/-- createTaskItemForData (app.go:260-308). -/
def createTaskItemForData (task : TellStatus) : TaskItem :=
  let name : String := "未知任务"
  let status : String := task.Status
  let progress : Float64 := .fin false 0
  let speedText : String := "0 B/s"
  let sizeText : String := "0 B / 0 B"
  let name :=
    match task.Files with
    | file :: _ => if file.Path = "" then "未命名任务" else file.Path
    | [] => name
  let (progress, sizeText) :=
    if task.TotalLength ≠ "0" ∧ task.CompletedLength ≠ "0" then
      let total := parseFloat64 task.TotalLength
      let completed := parseFloat64 task.CompletedLength
      let progress := if (Float64.ofNat 0).lt total then completed.div total else progress
      (progress, formatSize completed ++ " / " ++ formatSize total)
    else (progress, sizeText)
  let speedText :=
    if task.DownloadSpeed ≠ "0" then formatSpeed (parseFloat64 task.DownloadSpeed)
    else speedText
  { name := name, status := status, progress := progress, speedText := speedText,
    sizeText := sizeText }

/-- An endpoint that answers every request with the result `"2089b05ecca3d829"`,
the gid of a new download, and no error descriptor. -/
def gidWorld : World :=
  stubWorld fun _ => .ok { StatusCode := 200, Body := okBody "\"2089b05ecca3d829\"" }

/-! ## internal/ui/app.go: reconnecting -/

/-- The text of an error, `err.Error()`, which the verb `%v` prints: the text
given to `fmt.Errorf`, or the message of the library. -/
def GoError.Error : GoError → String
  | .lib _ msg => msg
  | .errorf text => text

/-- The window reconnectAria2 opens, with the message on its label: the one of
showErrorMessage (app.go:679-694) or the one of showSuccessMessage
(app.go:697-712). -/
inductive Message where
  | error (message : String)
  | success (message : String)
  deriving DecidableEq, Repr

/-- reconnectAria2 (app.go:481-499): the App after the call and the window the
call opens. refreshTaskList (app.go:877-888), called after the success window,
rebuilds the main window and writes neither `config` nor `aria2Client`. -/
def reconnectAria2 (w : World) (a : App) : App × Message :=
  let newClient :=
    NewClient a.config.Host a.config.Port a.config.Token a.config.Protocol a.config.Path
  match GetVersion w newClient with
  | (_, some err) => (a, .error ("连接 aria2 失败: " ++ err.Error))
  | (_, none) => ({ a with aria2Client := some newClient }, .success "已重新连接到 aria2")

/-- The result text of `aria2.getVersion` of an engine of version 1.36.0. -/
def versionText : String :=
  obj "\"enabledFeatures\":[\"BitTorrent\",\"HTTPS\"],\"version\":\"1.36.0\""

/-- An engine that wants the secret `s3cret`: it answers the version request
carrying that secret with `versionText` and drops every other request. -/
def versionWorld : World :=
  { Marshal := stubMarshal
    Post := fun _ _ data =>
      if data = requestText "aria2.getVersion" "\"token:s3cret\"" then
        .ok { StatusCode := 200, Body := okBody versionText }
      else .error connReset
    Decode := fun body =>
      if body = okBody versionText then
        .ok { JSONRPC := "2.0", Result := versionText, Error := none, ID := "1" }
      else stubDecode body
    UnmarshalVersion := fun raw =>
      if raw = versionText then
        .ok { Version := "1.36.0", EnabledFeatures := ["BitTorrent", "HTTPS"] }
      else .error (.lib "encoding/json" "cannot unmarshal into Version")
    UnmarshalTasks := stubTasks
    UnmarshalString := stubString
    UnmarshalStats := fun _ =>
      .error (.lib "encoding/json" "cannot unmarshal into map[string]string") }

/-- An App whose configuration was edited after it connected through
`localClient`: the configuration names another host, port, secret, protocol and
path than the client in use. -/
def editedApp : App :=
  { config := { Host := "nas.local", Port := 6801, Token := "s3cret", Path := "/rpc",
                Protocol := "https", AutoReconnect := true, Timeout := 30 }
    aria2Client := some localClient }

/-- The body `{"id":"1","jsonrpc":"2.0"}`, which has neither a result nor an
error descriptor. -/
def bareBody : String :=
  obj "\"id\":\"1\",\"jsonrpc\":\"2.0\""

/-- An endpoint that answers every request with the given body, where the body
is `bareBody`, which decodes to an envelope whose `Result` and `Error` keep
their zero values, or `okBody "null"`, whose `Result` is the text `null`; other
bodies are decoded by `stubDecode`. -/
def bodyWorld (body : String) : World :=
  { Marshal := stubMarshal
    Post := fun _ _ _ => .ok { StatusCode := 200, Body := body }
    Decode := fun text =>
      if text = bareBody then
        .ok { JSONRPC := "2.0", Result := "", Error := none, ID := "1" }
      else if text = okBody "null" then
        .ok { JSONRPC := "2.0", Result := "null", Error := none, ID := "1" }
      else stubDecode text
    UnmarshalVersion := fun _ => .error (.lib "encoding/json" "cannot unmarshal into Version")
    UnmarshalTasks := stubTasks
    UnmarshalString := stubString
    UnmarshalStats := fun _ =>
      .error (.lib "encoding/json" "cannot unmarshal into map[string]string") }

/-- The file entry decoded from `{"path":p}`: every other field is zero. -/
def fileOf (p : String) : FileInfo :=
  { Index := "", Path := p, Length := "", CompletedLength := "", Selected := "", URIs := [] }

/-- The float64 that holds the integer `z` exactly, if there is one. The
conversion `float64(z)` rounds `z` to the nearest float64; `z` is held exactly
when that rounding changes nothing, as it does for every `z` from `-2^53` to
`2^53`. -/
def Float64.ofInt? (z : Int) : Option Float64 :=
  if roundUnits (z.natAbs * Float64.one) 1 = z.natAbs * Float64.one then
    some (.fin (decide (z < 0)) (z.natAbs * Float64.one))
  else none

/-! ## The task aggregator: theorems -/

/-- C1, evaluated on the code: when the active fetch fails while the waiting and
stopped fetches each return one record, getAllTasks returns those two records,
not the empty sequence, whereas getTaskCount returns 0 there. -/
theorem getAllTasks_active_failed_not_empty :
    (TellActive activeDownWorld localClient).2 = some connReset ∧
    getAllTasks activeDownWorld localApp = [taskOf "w1", taskOf "s1"] ∧
    getAllTasks activeDownWorld localApp ≠ [] ∧
    getTaskCount activeDownWorld localApp = 0 := by
  decide

/-- C2: when the active fetch succeeds with `A`, getAllTasks returns `A`, then
the waiting records if that fetch succeeded, then the stopped records if that
fetch succeeded; with two active records, a failed waiting fetch and three
stopped records it returns the two active records followed by the three stopped
ones, five records in all. -/
theorem getAllTasks_active_ok (w : World) (a : App) (client : Client) (A : List TellStatus)
    (hc : a.aria2Client = some client) (hA : TellActive w client = (A, none)) :
    getAllTasks w a
        = A ++ fetched (TellWaiting w client 0 1000) ++ fetched (TellStopped w client 0 100) ∧
    (∀ (e : GoError) (S : List TellStatus), A.length = 2 →
        (TellWaiting w client 0 1000).2 = some e →
        TellStopped w client 0 100 = (S, none) → S.length = 3 →
        getAllTasks w a = A ++ S ∧ (getAllTasks w a).length = 5) := by
  have key : getAllTasks w a
      = A ++ fetched (TellWaiting w client 0 1000) ++ fetched (TellStopped w client 0 100) := by
    simp only [getAllTasks, hc, hA]
    rcases TellWaiting w client 0 1000 with ⟨W, _ | eW⟩ <;>
      rcases TellStopped w client 0 100 with ⟨S, _ | eS⟩ <;>
      simp [fetched]
  refine ⟨key, ?_⟩
  intro e S hlen hW hS hS3
  rw [key, hS]
  rcases hWaiting : TellWaiting w client 0 1000 with ⟨W, _ | eW⟩
  · rw [hWaiting] at hW
    cases hW
  · simp [fetched, hlen, hS3]

/-- C2 at the scenario endpoint: the aggregate is the two active records
followed by the three stopped records. -/
theorem getAllTasks_active_ok_witness :
    localApp.aria2Client = some localClient ∧
    TellActive scenarioWorld localClient = ([taskOf "a1", taskOf "a2"], none) ∧
    (TellWaiting scenarioWorld localClient 0 1000).2 = some connReset ∧
    TellStopped scenarioWorld localClient 0 100
      = ([taskOf "s1", taskOf "s2", taskOf "s3"], none) ∧
    getAllTasks scenarioWorld localApp
      = [taskOf "a1", taskOf "a2"] ++ [taskOf "s1", taskOf "s2", taskOf "s3"] ∧
    (getAllTasks scenarioWorld localApp).length = 5 :=
  ⟨rfl, by decide, by decide, by decide,
    (getAllTasks_active_ok scenarioWorld localApp localClient [taskOf "a1", taskOf "a2"]
      rfl (by decide)).2 connReset [taskOf "s1", taskOf "s2", taskOf "s3"]
      rfl (by decide) (by decide) rfl⟩

/-- C3: when the three fetches succeed with `A`, `W` and `S`, getAllTasks returns
`A ++ W ++ S`, so every record is kept in its place and the aggregate has
`|A| + |W| + |S|` records. -/
theorem getAllTasks_all_ok (w : World) (a : App) (client : Client)
    (A W S : List TellStatus) (hc : a.aria2Client = some client)
    (hA : TellActive w client = (A, none))
    (hW : TellWaiting w client 0 1000 = (W, none))
    (hS : TellStopped w client 0 100 = (S, none)) :
    getAllTasks w a = A ++ W ++ S ∧
    (getAllTasks w a).length = A.length + W.length + S.length := by
  have key : getAllTasks w a = A ++ W ++ S := by
    simp [getAllTasks, hc, hA, hW, hS]
  refine ⟨key, ?_⟩
  rw [key]
  simp [Nat.add_assoc]

/-- C3 at an endpoint that reports the gid `a1` both as active and as waiting:
both copies are in the aggregate. -/
theorem getAllTasks_all_ok_witness :
    getAllTasks overlapWorld localApp
      = [taskOf "a1"] ++ [taskOf "a1", taskOf "w1"] ++ [taskOf "s1"] ∧
    (getAllTasks overlapWorld localApp).length = 1 + 2 + 1 :=
  getAllTasks_all_ok overlapWorld localApp localClient
    [taskOf "a1"] [taskOf "a1", taskOf "w1"] [taskOf "s1"]
    rfl (by decide) (by decide) (by decide)

/-- C4, evaluated on the code: with two active records, a failed waiting fetch
and three stopped records, getTaskCount returns 2 while getAllTasks returns five
records. -/
theorem getTaskCount_differs_from_getAllTasks :
    getTaskCount scenarioWorld localApp = 2 ∧
    (getAllTasks scenarioWorld localApp).length = 5 ∧
    getTaskCount scenarioWorld localApp ≠ (getAllTasks scenarioWorld localApp).length := by
  decide

/-! ## The binding layer: theorems -/

/-- Every binding hands the error of sendRequest on, beside the zero result. -/
theorem Call.err_of_sendRequest_error (w : World) (c : Client) (call : Call) (e : GoError)
    (hs : sendRequest w c (call.request c) = .error e) :
    call.err w c = some e ∧ call.zeroResult w c = true := by
  cases call <;>
    simp only [Call.request] at hs <;>
    simp [Call.err, Call.zeroResult, GetVersion, TellActive, TellWaiting, TellStopped,
      AddURI, Pause, Unpause, Remove, PauseAll, UnpauseAll, GetGlobalStat, hs]

/-- The text a binding posts is the marshalled form of `call.request c`, sent to
the URL of the client as `application/json`: when that post fails, so does the
binding, with the error of the post. -/
theorem Call.err_of_post_error (w : World) (c : Client) (call : Call) (data : String)
    (e : GoError) (hm : w.Marshal (call.request c) = .ok data)
    (hp : w.Post c.rpcURL "application/json" data = .error e) :
    call.err w c = some e :=
  (Call.err_of_sendRequest_error w c call e (by simp [sendRequest, hm, hp])).1

/-- C5, refuted as stated: Pause returns the same error, the text
"RPC error: task not found", for the descriptor with code 1 and for the one with
code 2, so nothing read from the returned error gives the engine's code. -/
theorem Pause_error_does_not_carry_code :
    sendRequest (notFoundWorld 1) localClient (PauseRequest localClient "2089b05ecca3d829")
      = .ok { JSONRPC := "", Result := "", ID := "",
              Error := some { Code := 1, Message := "task not found" } } ∧
    Pause (notFoundWorld 1) localClient "2089b05ecca3d829"
      = some (.errorf "RPC error: task not found") ∧
    ¬ ∃ codeOf : Option GoError → Int,
        codeOf (Pause (notFoundWorld 1) localClient "2089b05ecca3d829") = 1 ∧
        codeOf (Pause (notFoundWorld 2) localClient "2089b05ecca3d829") = 2 := by
  refine ⟨by decide, by decide, ?_⟩
  rintro ⟨codeOf, h1, h2⟩
  have same : Pause (notFoundWorld 2) localClient "2089b05ecca3d829"
      = Pause (notFoundWorld 1) localClient "2089b05ecca3d829" := by decide
  rw [same, h1] at h2
  omega

/-- C5, amended: for every binding, when the decoded envelope carries an error
descriptor `e`, the call returns the zero result and the error whose text is
"RPC error: " followed by the message of `e`; the code of `e` has no part
in it. -/
theorem binding_reports_descriptor_message (w : World) (c : Client) (call : Call)
    (response : RPCResponse) (e : RPCError)
    (hs : sendRequest w c (call.request c) = .ok response)
    (he : response.Error = some e) :
    call.err w c = some (.errorf ("RPC error: " ++ e.Message)) ∧
    call.zeroResult w c = true := by
  cases call <;>
    simp only [Call.request] at hs <;>
    simp [Call.err, Call.zeroResult, GetVersion, TellActive, TellWaiting, TellStopped,
      AddURI, Pause, Unpause, Remove, PauseAll, UnpauseAll, GetGlobalStat, hs, he]

/-- C5 amended, at the response `{"error":{"code":1,"message":"task not found"}}`
to Pause. -/
theorem binding_reports_descriptor_message_witness :
    Pause (notFoundWorld 1) localClient "2089b05ecca3d829"
      = some (.errorf ("RPC error: " ++ "task not found")) :=
  (binding_reports_descriptor_message (notFoundWorld 1) localClient
    (.pause "2089b05ecca3d829")
    { JSONRPC := "", Result := "", ID := "",
      Error := some { Code := 1, Message := "task not found" } }
    { Code := 1, Message := "task not found" } (by decide) rfl).1

/-- C6: for every binding, when sendRequest fails with `e` the binding returns
`e` itself together with the zero result. -/
theorem binding_returns_transport_error (w : World) (c : Client) (call : Call) (e : GoError)
    (hs : sendRequest w c (call.request c) = .error e) :
    call.err w c = some e ∧ call.zeroResult w c = true :=
  Call.err_of_sendRequest_error w c call e hs

/-- C6 at an endpoint that drops the connection: AddURI returns the empty
string and the error of the dropped connection. -/
theorem binding_returns_transport_error_witness :
    sendRequest downWorld localClient
      (AddURIRequest localClient ["http://example.org/file.iso"] []) = .error connReset ∧
    AddURI downWorld localClient ["http://example.org/file.iso"] [] = ("", some connReset) :=
  ⟨by decide, by
    have h := binding_returns_transport_error downWorld localClient
      (.addURI ["http://example.org/file.iso"] []) connReset (by decide)
    simp only [Call.err, Call.zeroResult, beq_iff_eq] at h
    exact Prod.ext h.2 h.1⟩

/-- C7, refuted as stated: on an HTTP 500 response whose body is a well-formed
envelope, sendRequest succeeds and Pause returns no error. -/
theorem sendRequest_accepts_status_500 :
    sendRequest (statusWorld 500) localClient (PauseRequest localClient "2089b05ecca3d829")
      = .ok { JSONRPC := "2.0", Result := "\"OK\"", Error := none, ID := "1" } ∧
    Pause (statusWorld 500) localClient "2089b05ecca3d829" = none := by
  decide

/-- C7, amended: sendRequest does not read the status code. Once the request is
marshalled and posted, its outcome is the outcome of decoding the body of the
response, whatever the status code is. -/
theorem sendRequest_ignores_status (w : World) (c : Client) (request : RPCRequest)
    (data : String) (status : Int) (body : String)
    (hm : w.Marshal request = .ok data)
    (hp : w.Post c.rpcURL "application/json" data = .ok { StatusCode := status, Body := body }) :
    sendRequest w c request = w.Decode body := by
  simp only [sendRequest, hm, hp]
  cases w.Decode body <;> rfl

/-- C7 amended, at an HTTP 500 response with a well-formed envelope. -/
theorem sendRequest_ignores_status_witness :
    sendRequest (statusWorld 500) localClient (TellActiveRequest localClient)
      = (statusWorld 500).Decode (okBody "\"OK\"") :=
  sendRequest_ignores_status (statusWorld 500) localClient (TellActiveRequest localClient)
    (requestText "aria2.tellActive" "\"token:\"") 500 (okBody "\"OK\"") (by decide) rfl

/-- C8: for each of the eleven bindings and every secret `t` given to NewClient,
the parameter list of the request is not empty and starts with the string
"token:" followed by `t`; with the empty secret it starts with "token:". It is
this request that the binding marshals and posts: when posting its text fails,
the binding returns the error of the post. -/
theorem params_start_with_token (w : World) (host : String) (port : Int) (t : String)
    (protocol : String) (path : String) (call : Call) :
    (call.request (NewClient host port t protocol path)).Params ≠ [] ∧
    (call.request (NewClient host port t protocol path)).Params.head?
      = some (.str ("token:" ++ t)) ∧
    (call.request (NewClient host port "" protocol path)).Params.head?
      = some (.str "token:") ∧
    (∀ (data : String) (e : GoError),
      w.Marshal (call.request (NewClient host port t protocol path)) = .ok data →
      w.Post (NewClient host port t protocol path).rpcURL "application/json" data = .error e →
      call.err w (NewClient host port t protocol path) = some e) := by
  refine ⟨?_, ?_, ?_, fun data e hm hp => Call.err_of_post_error w _ call data e hm hp⟩ <;>
    cases call <;>
    simp [Call.request, NewClient, GetVersionRequest, TellActiveRequest, TellWaitingRequest,
      TellStoppedRequest, AddURIRequest, PauseRequest, UnpauseRequest, RemoveRequest,
      PauseAllRequest, UnpauseAllRequest, GetGlobalStatRequest]

/-- C8 at Remove on a client with the empty secret and an endpoint that drops
the connection: the text posted starts its parameters with "token:". -/
theorem params_start_with_token_witness :
    downWorld.Marshal (RemoveRequest localClient "2089b05ecca3d829")
      = .ok (requestText "aria2.remove" "\"token:\",\"2089b05ecca3d829\"") ∧
    Remove downWorld localClient "2089b05ecca3d829" = some connReset :=
  ⟨by decide,
    (params_start_with_token downWorld "localhost" 6800 "" "http" "/jsonrpc"
      (.remove "2089b05ecca3d829")).2.2.2
      (requestText "aria2.remove" "\"token:\",\"2089b05ecca3d829\"") connReset
      (by decide) rfl⟩

/-- C9: every binding builds its request with protocol tag "2.0", identifier
"1" and the method name of its operation, whatever the arguments and the
client are; this request is the one the binding marshals and posts. -/
theorem request_envelope_fixed (w : World) (c : Client) (call : Call) :
    (call.request c).JSONRPC = "2.0" ∧ (call.request c).ID = "1" ∧
    (call.request c).Method = call.methodName ∧
    (∀ (data : String) (e : GoError), w.Marshal (call.request c) = .ok data →
      w.Post c.rpcURL "application/json" data = .error e → call.err w c = some e) := by
  refine ⟨?_, ?_, ?_, fun data e hm hp => Call.err_of_post_error w c call data e hm hp⟩ <;>
    cases call <;> rfl

/-- C9 at GetGlobalStat on an endpoint that drops the connection: the text
posted names the method aria2.getGlobalStat, tag "2.0" and identifier "1". -/
theorem request_envelope_fixed_witness :
    downWorld.Marshal (GetGlobalStatRequest localClient)
      = .ok (requestText "aria2.getGlobalStat" "\"token:\"") ∧
    (GetGlobalStat downWorld localClient).2 = some connReset :=
  ⟨by decide,
    (request_envelope_fixed downWorld localClient .getGlobalStat).2.2.2
      (requestText "aria2.getGlobalStat" "\"token:\"") connReset (by decide) rfl⟩

/-- C10: TellWaiting and TellStopped put `offset` and `num` in the parameter
list as given, after the token and in this order, for all integers; the request
with this parameter list is the one they marshal and post. -/
theorem list_params_verbatim (w : World) (c : Client) (offset : Int) (num : Int) :
    (TellWaitingRequest c offset num).Params
      = [.str ("token:" ++ c.token), .int offset, .int num] ∧
    (TellStoppedRequest c offset num).Params
      = [.str ("token:" ++ c.token), .int offset, .int num] ∧
    (∀ (data : String) (e : GoError),
      w.Marshal { JSONRPC := "2.0", Method := "aria2.tellWaiting", ID := "1",
                  Params := [.str ("token:" ++ c.token), .int offset, .int num] } = .ok data →
      w.Post c.rpcURL "application/json" data = .error e →
      TellWaiting w c offset num = ([], some e)) ∧
    (∀ (data : String) (e : GoError),
      w.Marshal { JSONRPC := "2.0", Method := "aria2.tellStopped", ID := "1",
                  Params := [.str ("token:" ++ c.token), .int offset, .int num] } = .ok data →
      w.Post c.rpcURL "application/json" data = .error e →
      TellStopped w c offset num = ([], some e)) := by
  refine ⟨rfl, rfl, ?_, ?_⟩
  · intro data e hm hp
    have hs : sendRequest w c (TellWaitingRequest c offset num) = .error e := by
      simp [sendRequest, TellWaitingRequest, hm, hp]
    simp [TellWaiting, hs]
  · intro data e hm hp
    have hs : sendRequest w c (TellStoppedRequest c offset num) = .error e := by
      simp [sendRequest, TellStoppedRequest, hm, hp]
    simp [TellStopped, hs]

/-- C10 at a negative offset and the largest 64-bit count, on an endpoint that
drops the connection: the text posted carries -5 and 9223372036854775807. -/
theorem list_params_verbatim_witness :
    downWorld.Marshal (TellWaitingRequest localClient (-5) 9223372036854775807)
      = .ok (requestText "aria2.tellWaiting" "\"token:\",-5,9223372036854775807") ∧
    TellWaiting downWorld localClient (-5) 9223372036854775807 = ([], some connReset) :=
  ⟨by decide,
    (list_params_verbatim downWorld localClient (-5) 9223372036854775807).2.2.1
      (requestText "aria2.tellWaiting" "\"token:\",-5,9223372036854775807") connReset
      (by decide) rfl⟩

/-- C11: AddURI sends the parameter list of the token, the URI list and the
options mapping, both as given, and when the response has no error descriptor
and its result decodes to the string `g`, AddURI returns `g` and no error. -/
theorem AddURI_passes_through (w : World) (c : Client) (uris : List String)
    (options : List (String × Value)) :
    (AddURIRequest c uris options).Params
      = [.str ("token:" ++ c.token), .strs uris, .map options] ∧
    (∀ (response : RPCResponse) (g : String),
      sendRequest w c { JSONRPC := "2.0", Method := "aria2.addUri", ID := "1",
                        Params := [.str ("token:" ++ c.token), .strs uris, .map options] }
        = .ok response →
      response.Error = none → w.UnmarshalString response.Result = .ok g →
      AddURI w c uris options = (g, none)) := by
  refine ⟨rfl, ?_⟩
  intro response g hs he hg
  have hs2 : sendRequest w c (AddURIRequest c uris options) = .ok response := hs
  simp [AddURI, hs2, he, hg]

/-- C11 at one HTTP URI and the empty options mapping: AddURI returns the gid
the engine answered. -/
theorem AddURI_passes_through_witness :
    gidWorld.Marshal (AddURIRequest localClient ["http://example.org/file.iso"] [])
      = .ok (requestText "aria2.addUri" ("\"token:\",[\"http://example.org/file.iso\"]," ++ obj "")) ∧
    AddURI gidWorld localClient ["http://example.org/file.iso"] []
      = ("2089b05ecca3d829", none) :=
  ⟨by decide,
    (AddURI_passes_through gidWorld localClient ["http://example.org/file.iso"] []).2
      { JSONRPC := "2.0", Result := "\"2089b05ecca3d829\"", Error := none, ID := "1" }
      "2089b05ecca3d829" (by decide) rfl (by decide)⟩

/-- C12: the URL of the client NewClient builds is the protocol, "://", the
host, ":", the port in decimal and the path, the token is stored as given, and
sendRequest posts to that URL. -/
theorem NewClient_endpoint (w : World) (host : String) (port : Int) (token : String)
    (protocol : String) (path : String) :
    (NewClient host port token protocol path).rpcURL
      = protocol ++ "://" ++ host ++ ":" ++ toString port ++ path ∧
    (NewClient host port token protocol path).token = token ∧
    (∀ (request : RPCRequest) (data : String) (e : GoError),
      w.Marshal request = .ok data →
      w.Post (protocol ++ "://" ++ host ++ ":" ++ toString port ++ path)
        "application/json" data = .error e →
      sendRequest w (NewClient host port token protocol path) request = .error e) := by
  refine ⟨rfl, rfl, ?_⟩
  intro request data e hm hp
  have hp2 : w.Post (NewClient host port token protocol path).rpcURL "application/json" data
      = .error e := hp
  simp [sendRequest, hm, hp2]

/-- C12 at the default configuration: the client posts to
http://localhost:6800/jsonrpc. -/
theorem NewClient_endpoint_witness :
    (NewClient "localhost" 6800 "secret" "http" "/jsonrpc").rpcURL
      = "http://localhost:6800/jsonrpc" ∧
    sendRequest downWorld (NewClient "localhost" 6800 "secret" "http" "/jsonrpc")
      (TellActiveRequest localClient) = .error connReset :=
  ⟨by decide,
    (NewClient_endpoint downWorld "localhost" 6800 "secret" "http" "/jsonrpc").2.2
      (TellActiveRequest localClient) (requestText "aria2.tellActive" "\"token:\"")
      connReset (by decide) rfl⟩

/-! ## The metrics: lemmas on float64, the scanner and the progress -/

theorem progress_eq (task : TellStatus) :
    (createTaskItemForData task).progress
      = if task.TotalLength ≠ "0" ∧ task.CompletedLength ≠ "0" ∧
            (Float64.ofNat 0).lt (parseFloat64 task.TotalLength) = true
        then (parseFloat64 task.CompletedLength).div (parseFloat64 task.TotalLength)
        else .fin false 0 := by
  unfold createTaskItemForData
  by_cases h1 : task.TotalLength ≠ "0" ∧ task.CompletedLength ≠ "0"
  · by_cases h2 : (Float64.ofNat 0).lt (parseFloat64 task.TotalLength) = true
    · simp [h1, h2]
    · simp [h1, h2]
  · have h3 : ¬ (task.TotalLength ≠ "0" ∧ task.CompletedLength ≠ "0" ∧
        (Float64.ofNat 0).lt (parseFloat64 task.TotalLength) = true) :=
      fun h => h1 ⟨h.1, h.2.1⟩
    rw [if_neg h3]
    simp only [h1, if_false]

theorem Float64.zero_lt_zero (neg : Bool) : (Float64.ofNat 0).lt (.fin neg 0) = false := by
  cases neg <;> decide

theorem Float64.lt_eq_false_of_le (a b : Float64) (h : a.le b = true) : b.lt a = false := by
  rcases a with _ | na | ⟨na, x⟩ <;> rcases b with _ | nb | ⟨nb, y⟩ <;>
    (try cases na) <;> (try cases nb) <;>
    simp_all [Float64.le, Float64.lt, Float64.signed]

theorem Float64.le_trans (a b c : Float64) (h1 : a.le b = true) (h2 : b.le c = true) :
    a.le c = true := by
  rcases a with _ | na | ⟨na, x⟩ <;> rcases b with _ | nb | ⟨nb, y⟩ <;>
    rcases c with _ | nc | ⟨nc, z⟩ <;>
    (try cases na) <;> (try cases nb) <;> (try cases nc) <;>
    simp_all [Float64.le, Float64.signed] <;> omega

theorem Float64.ofNat_le_ofNat (n m : Nat) (h : n ≤ m) :
    (Float64.ofNat n).le (Float64.ofNat m) = true := by
  have key : ((n * Float64.one : Nat) : Int) ≤ ((m * Float64.one : Nat) : Int) := by
    exact_mod_cast Nat.mul_le_mul_right _ h
  simpa [Float64.ofNat, Float64.le, Float64.signed] using key

/-- The rounded quotient is not above a whole bound of the quotient. -/
theorem roundHalfEven_le (n d M : Nat) (hd : 0 < d) (h : n ≤ M * d) :
    roundHalfEven n d ≤ M := by
  have hq : n / d ≤ M := Nat.div_le_of_le_mul (by rw [Nat.mul_comm]; exact h)
  have hdm := Nat.div_add_mod n d
  have hstep : 0 < n % d → n / d + 1 ≤ M := by
    intro hr
    have h1 : d * (n / d) < M * d := by omega
    have h2 : n / d < M := by
      rw [Nat.mul_comm] at h1
      exact Nat.lt_of_mul_lt_mul_right h1
    omega
  unfold roundHalfEven
  simp only []
  split_ifs with h1 h2 h3
  · exact hq
  · exact hstep (by omega)
  · exact hq
  · exact hstep (by omega)

/-- The rounded quotient is not below the whole part of the quotient. -/
theorem le_roundHalfEven (n d : Nat) : n / d ≤ roundHalfEven n d := by
  unfold roundHalfEven
  simp only []
  split_ifs <;> omega

/-- The bisection keeps its lower bound. -/
theorem log2Search_pow_le (i lo n : Nat) (h : 2 ^ lo ≤ n) : 2 ^ log2Search i lo n ≤ n := by
  induction i generalizing lo with
  | zero => simpa [log2Search] using h
  | succ k ih =>
    unfold log2Search
    split_ifs with hmid
    · exact ih _ hmid
    · exact ih _ h

/-- A number other than 0 is at least the power of two of its top binary digit. -/
theorem pow_bitLength_le (n : Nat) (hn : n ≠ 0) : 2 ^ (bitLength n - 1) ≤ n := by
  unfold bitLength
  rw [if_neg hn]
  simp only [Nat.add_sub_cancel]
  exact log2Search_pow_le _ 0 n (by simpa using Nat.pos_of_ne_zero hn)

/-- Rounding to float64 does not pass a power of two that bounds the quotient. -/
theorem roundUnits_le (n d K : Nat) (hd : 0 < d) (h : n ≤ 2 ^ K * d) :
    roundUnits n d ≤ 2 ^ K := by
  unfold roundUnits
  simp only []
  split_ifs with hsmall
  · exact roundHalfEven_le n d _ hd h
  · have hu : n / d ≤ 2 ^ K := Nat.div_le_of_le_mul (by rw [Nat.mul_comm]; exact h)
    have hne : n / d ≠ 0 := by
      intro h0
      rw [h0] at hsmall
      exact hsmall (by positivity)
    have hb := pow_bitLength_le (n / d) hne
    have hexp : bitLength (n / d) - 1 ≤ K :=
      (Nat.pow_le_pow_iff_right (by norm_num)).1 (le_trans hb hu)
    have hs : bitLength (n / d) - 53 ≤ K := by omega
    have hqs : roundHalfEven n (d * 2 ^ (bitLength (n / d) - 53))
        ≤ 2 ^ (K - (bitLength (n / d) - 53)) := by
      apply roundHalfEven_le
      · positivity
      · calc n ≤ 2 ^ K * d := h
          _ = 2 ^ (K - (bitLength (n / d) - 53) + (bitLength (n / d) - 53)) * d := by
              rw [Nat.sub_add_cancel hs]
          _ = 2 ^ (K - (bitLength (n / d) - 53)) * (d * 2 ^ (bitLength (n / d) - 53)) := by
              rw [pow_add]; ring
    calc roundHalfEven n (d * 2 ^ (bitLength (n / d) - 53)) * 2 ^ (bitLength (n / d) - 53)
        ≤ 2 ^ (K - (bitLength (n / d) - 53)) * 2 ^ (bitLength (n / d) - 53) :=
          Nat.mul_le_mul_right _ hqs
      _ = 2 ^ K := by rw [← pow_add, Nat.sub_add_cancel hs]

/-- Zero rounds to zero. -/
theorem roundUnits_zero (d : Nat) (hd : 0 < d) : roundUnits 0 d = 0 := by
  have h := roundUnits_le 0 d 0 hd (by simp)
  have h2 : roundUnits 0 d ≤ 1 := by simpa using h
  unfold roundUnits at h2 ⊢
  simp only [Nat.zero_div] at h2 ⊢
  rw [if_pos (by positivity)] at h2 ⊢
  unfold roundHalfEven
  simp [hd]

/-- A whole number of units from `2^53` on does not round to 0. -/
theorem roundUnits_pos (n : Nat) (hn : 2 ^ 53 ≤ n) : 0 < roundUnits n 1 := by
  unfold roundUnits
  simp only [Nat.div_one, Nat.one_mul]
  rw [if_neg (by omega)]
  have hne : n ≠ 0 := by
    intro h0
    rw [h0] at hn
    exact absurd hn (by norm_num)
  have hb := pow_bitLength_le n hne
  have hs : 2 ^ (bitLength n - 53) ≤ n :=
    le_trans (Nat.pow_le_pow_right (by norm_num) (by omega)) hb
  have hq : 1 ≤ n / 2 ^ (bitLength n - 53) :=
    (Nat.one_le_div_iff (by positivity)).2 hs
  have := le_roundHalfEven n (2 ^ (bitLength n - 53))
  have hpos : 0 < 2 ^ (bitLength n - 53) := by positivity
  exact Nat.mul_pos (by omega) hpos

theorem isDecimalDigit_toNat (c : Char) (h : isDecimalDigit c = true) :
    48 ≤ c.toNat ∧ c.toNat ≤ 57 := by
  simp only [isDecimalDigit, Bool.and_eq_true, decide_eq_true_eq] at h
  obtain ⟨h1, h2⟩ := h
  have h1' : ('0' : Char).val ≤ c.val := h1
  have h2' : c.val ≤ ('9' : Char).val := h2
  rw [UInt32.le_def] at h1' h2'
  constructor
  · exact h1'
  · exact h2'

theorem isDecimalDigit_cases (c : Char) (h : isDecimalDigit c = true) :
    c ∈ ['0', '1', '2', '3', '4', '5', '6', '7', '8', '9'] := by
  obtain ⟨h1, h2⟩ := isDecimalDigit_toNat c h
  have hc : c = Char.ofNat c.toNat := (Char.ofNat_toNat c).symm
  rw [hc]
  generalize c.toNat = k at h1 h2
  interval_cases k <;> decide


/-- What is true of each of the ten digits. -/
theorem digit_facts : ∀ c ∈ ['0', '1', '2', '3', '4', '5', '6', '7', '8', '9'],
    c ≠ '\r' ∧ c ≠ '\n' ∧ isSpace c = false ∧
    "nN".data.contains c = false ∧ "+-".data.contains c = false ∧
    "iI".data.contains c = false ∧ "xX".data.contains c = false ∧
    ".".data.contains c = false ∧ "eEpP".data.contains c = false ∧
    (decimalDigits ++ "_").data.contains c = true ∧
    c ≠ '+' ∧ c ≠ '-' ∧ c ≠ 'i' ∧ c ≠ 'I' ∧ c ≠ 'n' ∧ c ≠ 'N' ∧
    lowerASCII c ≠ 'x' ∧ c ≠ '_' ∧ c ≠ '.' ∧ c ≠ 'p' ∧ c ≠ 'x' ∧ c ≠ 'X' := by
  decide

theorem Scanner.accept_nil (buf : List Char) (ok : String) :
    Scanner.accept { buf := buf, rest := [] } ok = (false, { buf := buf, rest := [] }) := rfl

theorem Scanner.accept_cons_false (buf : List Char) (r : Char) (rest : List Char) (ok : String)
    (h : ok.data.contains r = false) :
    Scanner.accept { buf := buf, rest := r :: rest } ok
      = (false, { buf := buf, rest := r :: rest }) := by
  simp only [Scanner.accept, h, Bool.false_eq_true, ↓reduceIte]

theorem Scanner.accept_cons_true (buf : List Char) (r : Char) (rest : List Char) (ok : String)
    (h : ok.data.contains r = true) :
    Scanner.accept { buf := buf, rest := r :: rest } ok
      = (true, { buf := buf ++ [r], rest := rest }) := by
  simp only [Scanner.accept, h, ↓reduceIte]

theorem Scanner.accept3_cons_false (buf : List Char) (r : Char) (rest : List Char)
    (a b c : String) (h : a.data.contains r = false) :
    Scanner.accept3 { buf := buf, rest := r :: rest } a b c
      = (false, { buf := buf, rest := r :: rest }) := by
  simp [Scanner.accept3, Scanner.accept_cons_false _ _ _ _ h]

/-- The spelling of all decimal digits and the underscore holds a digit. -/
theorem digits_takeWhile (l : List Char) (hl : ∀ c ∈ l, isDecimalDigit c = true) :
    l.takeWhile (fun r => (decimalDigits ++ "_").data.contains r) = l ∧
    l.dropWhile (fun r => (decimalDigits ++ "_").data.contains r) = [] := by
  constructor
  · rw [List.takeWhile_eq_self_iff]
    intro c hc
    exact (digit_facts c (isDecimalDigit_cases c (hl c hc))).2.2.2.2.2.2.2.2.2.1
  · rw [List.dropWhile_eq_nil_iff]
    intro c hc
    exact (digit_facts c (isDecimalDigit_cases c (hl c hc))).2.2.2.2.2.2.2.2.2.1

theorem Scanner.digitsToken_digits (buf l : List Char)
    (hl : ∀ c ∈ l, isDecimalDigit c = true) :
    Scanner.digitsToken { buf := buf, rest := l } (decimalDigits ++ "_") "eEpP" = buf ++ l := by
  obtain ⟨h1, h2⟩ := digits_takeWhile l hl
  simp only [Scanner.digitsToken, Scanner.acceptAll, h1, h2, Scanner.accept_nil,
    Bool.false_eq_true, ↓reduceIte]

/-- The token of a text of decimal digits is the whole text. -/
theorem floatToken_digits (ds : List Char) (h : ∀ c ∈ ds, isDecimalDigit c = true) :
    floatToken ds = ds := by
  cases ds with
  | nil => decide
  | cons d tl =>
    have hd := digit_facts d (isDecimalDigit_cases d (h d (List.mem_cons_self _ _)))
    obtain ⟨-, -, -, hn, hsign, hi, -⟩ := hd
    have htl : ∀ c ∈ tl, isDecimalDigit c = true := fun c hc => h c (List.mem_cons_of_mem _ hc)
    have step : floatToken (d :: tl)
        = Scanner.numberToken { buf := [], rest := d :: tl } := by
      simp [floatToken, Scanner.accept3_cons_false _ _ _ _ _ _ hn,
        Scanner.accept_cons_false _ _ _ _ hsign, Scanner.accept3_cons_false _ _ _ _ _ _ hi]
    rw [step]
    by_cases hz : "0".data.contains d = true
    · cases tl with
      | nil =>
        simp [Scanner.numberToken, Scanner.accept_cons_true _ _ _ _ hz, Scanner.accept_nil,
          Scanner.digitsToken_digits]
      | cons d2 tl2 =>
        have hd2 := digit_facts d2 (isDecimalDigit_cases d2 (htl d2 (List.mem_cons_self _ _)))
        simp [Scanner.numberToken, Scanner.accept_cons_true _ _ _ _ hz,
          Scanner.accept_cons_false _ _ _ _ hd2.2.2.2.2.2.2.1,
          Scanner.digitsToken_digits _ _ htl]
    · have hz' : "0".data.contains d = false := by simpa using hz
      simp [Scanner.numberToken, Scanner.accept_cons_false _ _ _ _ hz',
        Scanner.digitsToken_digits _ _ h]

theorem readBase_digits (l : List Char) (hl : ∀ c ∈ l, isDecimalDigit c = true) :
    readBase l = (false, l) := by
  match l, hl with
  | [], _ => rfl
  | [_], _ => rfl
  | [_, _], _ => rfl
  | c0 :: c1 :: c2 :: rest, hl =>
    have h1 := digit_facts c1 (isDecimalDigit_cases c1 (hl c1 (by simp)))
    have hx : lowerASCII c1 ≠ 'x' := h1.2.2.2.2.2.2.2.2.2.2.2.2.2.2.2.2.1
    simp [readBase, hx]

theorem readMantissa_digits (l : List Char) (hl : ∀ c ∈ l, isDecimalDigit c = true)
    (m : Mantissa) (hm : m.sawdot = false) :
    readMantissa false m l
      = ({ m with sawdigits := m.sawdigits || !l.isEmpty,
                  value := l.foldl (fun (acc : Nat) (c : Char) => acc * 10 + (c.toNat - 48))
                    m.value }, []) := by
  induction l generalizing m with
  | nil => simp [readMantissa]
  | cons c cs ih =>
    have hc := hl c (List.mem_cons_self _ _)
    have hf := digit_facts c (isDecimalDigit_cases c hc)
    have hu : c ≠ '_' := hf.2.2.2.2.2.2.2.2.2.2.2.2.2.2.2.2.2.1
    have hp : c ≠ '.' := hf.2.2.2.2.2.2.2.2.2.2.2.2.2.2.2.2.2.2.1
    have hcs : ∀ c ∈ cs, isDecimalDigit c = true := fun c h => hl c (List.mem_cons_of_mem _ h)
    rw [readMantissa]
    simp only [hu, hp, if_false, digitValue, hc, if_true]
    rw [ih hcs _ (by simpa using hm)]
    simp [hm]

/-- The text of decimal digits `ds`, as strconv reads it: the number the digits
spell, with no hexadecimal prefix and the exponent 0. -/
theorem readMagnitude_digits (s ds : List Char) (hne : ds ≠ [])
    (h : ∀ c ∈ ds, isDecimalDigit c = true) :
    readMagnitude s ds = some (false, decimalValue ds, 0) := by
  have hm := readMantissa_digits ds h {} rfl
  have hempty : ds.isEmpty = false := by
    cases ds with
    | nil => exact absurd rfl hne
    | cons _ _ => rfl
  simp [readMagnitude, readBase_digits ds h, hm, hempty, decimalValue]

/-- strconv.ParseFloat on a text of decimal digits: the float64 nearest to the
number they spell, or an error when that is out of range. -/
theorem ParseFloat_digits (ds : List Char) (hne : ds ≠ [])
    (h : ∀ c ∈ ds, isDecimalDigit c = true) :
    ParseFloat ds = Float64.ofScaled false false (decimalValue ds) 0 := by
  cases ds with
  | nil => exact absurd rfl hne
  | cons d tl =>
    have hf := digit_facts d (isDecimalDigit_cases d (h d (List.mem_cons_self _ _)))
    obtain ⟨-, -, -, -, -, -, -, -, -, -, h1, h2, h3, h4, h5, h6, -⟩ := hf
    have hs : special (d :: tl) = none := by
      simp [special, h1, h2, h3, h4, h5, h6]
    have hsign : readSign (d :: tl) = (false, d :: tl) := by
      simp [readSign, h1, h2]
    simp [ParseFloat, hs, readFloat, hsign, readMagnitude_digits (d :: tl) (d :: tl) hne h]

/-- fmt.Sscanf on a text of decimal digits. -/
theorem Sscanf_digits (s : String) (hne : s.data ≠ [])
    (h : ∀ c ∈ s.data, isDecimalDigit c = true) :
    Sscanf s = Float64.ofScaled false false (decimalValue s.data) 0 := by
  obtain ⟨d, tl, hd⟩ : ∃ d tl, s.data = d :: tl := by
    cases hs : s.data with
    | nil => exact absurd hs hne
    | cons d tl => exact ⟨d, tl, rfl⟩
  have hall : ∀ c ∈ d :: tl, isDecimalDigit c = true := by
    rw [← hd]; exact h
  have hf := digit_facts d (isDecimalDigit_cases d (hall d (List.mem_cons_self _ _)))
  have hskip : skipSpace (d :: tl) = some (d :: tl) := by
    simp [skipSpace, hf.1, hf.2.1, hf.2.2.1]
  have hp : (d :: tl).contains 'p' = false := by
    rw [List.contains_eq_any_beq, List.any_eq_false]
    intro c hc
    have := (digit_facts c (isDecimalDigit_cases c (hall c hc))).2.2.2.2.2.2.2.2.2.2.2.2.2.2.2.2.2.2.2.1
    simp only [beq_iff_eq, ne_eq] at this ⊢
    exact fun hcp => this hcp.symm
  unfold Sscanf
  rw [hd, hskip]
  simp only []
  rw [floatToken_digits _ hall]
  simp only [convertFloat, hp]
  simp
  exact ParseFloat_digits _ (by simp) hall

theorem Float64.ofScaled_digits (v : Nat) :
    Float64.ofScaled false false v 0
      = if roundUnits (v * Float64.one) 1 < Float64.overflow
        then some (.fin false (roundUnits (v * Float64.one) 1)) else none := by
  simp [Float64.ofScaled]

/-- A natural number up to `2^1023` rounds to a finite float64. -/
theorem roundUnits_lt_overflow (v : Nat) (hv : v ≤ 2 ^ 1023) :
    roundUnits (v * Float64.one) 1 < Float64.overflow := by
  have h1 : v * Float64.one ≤ 2 ^ 2097 * 1 := by
    have : v * Float64.one ≤ 2 ^ 1023 * 2 ^ 1074 := Nat.mul_le_mul_right _ hv
    rw [← pow_add] at this
    simpa using this
  have h2 := roundUnits_le (v * Float64.one) 1 2097 (by norm_num) h1
  have h3 : (2 : Nat) ^ 2097 < 2 ^ 2098 := Nat.pow_lt_pow_right (by norm_num) (by norm_num)
  exact lt_of_le_of_lt h2 h3

/-- parseFloat64 on a text of decimal digits that spells a number up to
`2^1023`: the float64 nearest to the number. -/
theorem parseFloat64_digits (s : String) (hne : s.data ≠ [])
    (h : ∀ c ∈ s.data, isDecimalDigit c = true) (hv : decimalValue s.data ≤ 2 ^ 1023) :
    parseFloat64 s = .fin false (roundUnits (decimalValue s.data * Float64.one) 1) := by
  simp [parseFloat64, Sscanf_digits s hne h, Float64.ofScaled_digits,
    roundUnits_lt_overflow _ hv]

theorem Float64.ofRatio_nat (v : Nat) (hv : v ≤ 2 ^ 1023) :
    Float64.ofRatio false v 1 = .fin false (roundUnits (v * Float64.one) 1) := by
  simp [Float64.ofRatio, roundUnits_lt_overflow _ hv]

theorem Float64.zero_div_fin (y : Nat) (hy : 0 < y) :
    (Float64.fin false 0).div (.fin false y) = .fin false 0 := by
  have hy' : y ≠ 0 := by omega
  have hov : (0 : Nat) < Float64.overflow := by
    unfold Float64.overflow; positivity
  simp [Float64.div, hy', Float64.ofRatio, roundUnits_zero y hy, hov]

theorem one_ge_pow53 : 2 ^ 53 ≤ Float64.one :=
  Nat.pow_le_pow_right (by norm_num) (by norm_num)

theorem Float64.zero_lt_fin (y : Nat) (hy : 0 < y) :
    (Float64.ofNat 0).lt (.fin false y) = true := by
  simp [Float64.lt, Float64.ofNat, Float64.signed, hy]


/-! ### The token is at the head of the input -/

theorem Scanner.accept_text (s : Scanner) (ok : String) :
    (s.accept ok).2.buf ++ (s.accept ok).2.rest = s.buf ++ s.rest := by
  unfold Scanner.accept
  split
  · rfl
  · split_ifs <;> simp_all

theorem Scanner.accept3_text (s : Scanner) (a b c : String) :
    (s.accept3 a b c).2.buf ++ (s.accept3 a b c).2.rest = s.buf ++ s.rest := by
  unfold Scanner.accept3
  simp only []
  split_ifs
  · rw [Scanner.accept_text, Scanner.accept_text, Scanner.accept_text]
  · rw [Scanner.accept_text, Scanner.accept_text]
  · rw [Scanner.accept_text]

theorem Scanner.acceptAll_text (s : Scanner) (ok : String) :
    (s.acceptAll ok).buf ++ (s.acceptAll ok).rest = s.buf ++ s.rest := by
  simp [Scanner.acceptAll, List.append_assoc]

theorem Scanner.buf_isHead (s : Scanner) (l : List Char) (h : s.buf ++ s.rest = l) :
    s.buf <+: l :=
  ⟨s.rest, h⟩

theorem Scanner.digitsToken_isHead (s : Scanner) (digits exp : String) :
    s.digitsToken digits exp <+: s.buf ++ s.rest := by
  unfold Scanner.digitsToken
  simp only []
  split_ifs <;> apply Scanner.buf_isHead <;>
    simp only [Scanner.acceptAll_text, Scanner.accept_text]

theorem Scanner.numberToken_isHead (s : Scanner) : s.numberToken <+: s.buf ++ s.rest := by
  have hx : ∀ x : Bool × Scanner, x.2.buf ++ x.2.rest = s.buf ++ s.rest →
      (if x.1 = true then x.2.digitsToken (hexadecimalDigits ++ "_") "pP"
        else x.2.digitsToken (decimalDigits ++ "_") "eEpP") <+: s.buf ++ s.rest := by
    intro x hx
    rw [← hx]
    split_ifs <;> exact Scanner.digitsToken_isHead _ _ _
  unfold Scanner.numberToken
  simp only []
  apply hx
  split_ifs
  · rw [Scanner.accept_text, Scanner.accept_text]
  · rw [Scanner.accept_text]

/-- The token floatToken collects is the head of the input. -/
theorem floatToken_isHead (input : List Char) : floatToken input <+: input := by
  unfold floatToken
  simp only []
  split_ifs
  · apply Scanner.buf_isHead
    rw [Scanner.accept3_text]
    rfl
  · apply Scanner.buf_isHead
    rw [Scanner.accept3_text, Scanner.accept_text, Scanner.accept3_text]
    rfl
  · have := Scanner.numberToken_isHead
      ((((Scanner.accept3 { buf := [], rest := input } "nN" "aA" "nN").2.accept "+-").2.accept3
        "iI" "nN" "fF").2)
    rwa [Scanner.accept3_text, Scanner.accept_text, Scanner.accept3_text] at this

/-! ### A negative result needs a minus sign -/

theorem Float64.signbit_of_lt_zero (v : Float64) (h : v.lt (Float64.ofNat 0) = true) :
    v.signbit = true := by
  rcases v with _ | neg | ⟨neg, u⟩
  · simp [Float64.lt] at h
  · simpa [Float64.lt, Float64.ofNat, Float64.signbit] using h
  · cases neg
    · simp [Float64.lt, Float64.ofNat, Float64.signed] at h
      omega
    · rfl

theorem Ldexp_signbit (f : Float64) (m : Int) : (Ldexp f m).signbit = f.signbit := by
  rcases f with _ | neg | ⟨neg, u⟩
  · rfl
  · rfl
  · unfold Ldexp
    simp only []
    split_ifs <;> rfl

theorem readSign_true (t : List Char) (h : (readSign t).1 = true) : t.head? = some '-' := by
  cases t with
  | nil => simp [readSign] at h
  | cons c rest =>
    by_cases h1 : c = '+'
    · simp [readSign, h1] at h
    · by_cases h2 : c = '-'
      · simp [h2]
      · simp [readSign, h1, h2] at h

theorem specialInf_signbit (neg : Bool) (nsign : Nat) (s : List Char) (v : Float64) (n : Nat)
    (h : specialInf neg nsign s = some (v, n)) : v.signbit = neg := by
  unfold specialInf at h
  simp only [] at h
  split_ifs at h <;>
    (simp only [Option.some.injEq, Prod.mk.injEq] at h
     rw [← h.1]
     rfl)

theorem special_signbit (t : List Char) (v : Float64) (n : Nat)
    (h : special t = some (v, n)) (hv : v.signbit = true) : t.head? = some '-' := by
  cases t with
  | nil => simp [special] at h
  | cons c rest =>
    unfold special at h
    simp only [] at h
    split_ifs at h with h1 h2 h3 h4 h5
    · have := specialInf_signbit _ _ _ _ _ h
      rw [hv] at this
      exact absurd this (by decide)
    · simp [h2]
    · have := specialInf_signbit _ _ _ _ _ h
      rw [hv] at this
      exact absurd this (by decide)
    · simp only [Option.some.injEq, Prod.mk.injEq] at h
      rw [← h.1] at hv
      exact absurd hv (by decide)

theorem Float64.ofScaled_signbit (neg binary : Bool) (value : Nat) (exp : Int) (v : Float64)
    (h : Float64.ofScaled neg binary value exp = some v) : v.signbit = neg := by
  unfold Float64.ofScaled at h
  simp only [] at h
  split_ifs at h <;>
    (simp only [Option.some.injEq] at h
     rw [← h]
     rfl)

theorem readFloat_signbit (t : List Char) (v : Float64) (h : readFloat t = some v)
    (hv : v.signbit = true) : t.head? = some '-' := by
  unfold readFloat at h
  simp only [] at h
  split at h
  · exact absurd h (by simp)
  · have := Float64.ofScaled_signbit _ _ _ _ _ h
    rw [hv] at this
    exact readSign_true t this.symm

theorem ParseFloat_signbit (t : List Char) (v : Float64) (h : ParseFloat t = some v)
    (hv : v.signbit = true) : t.head? = some '-' := by
  unfold ParseFloat at h
  split at h
  · rename_i v' n hs
    split_ifs at h
    simp only [Option.some.injEq] at h
    rw [← h] at hv
    exact special_signbit t v' n hs hv
  · exact readFloat_signbit t v h hv

theorem head_of_takeWhile (p : Char → Bool) (l : List Char) (a : Char)
    (h : (l.takeWhile p).head? = some a) : l.head? = some a := by
  cases l with
  | nil => simp at h
  | cons c cs =>
    rw [List.takeWhile_cons] at h
    split_ifs at h
    · simpa using h
    · simp at h

theorem convertFloat_signbit (tok : List Char) (v : Float64) (h : convertFloat tok = some v)
    (hv : v.signbit = true) : tok.head? = some '-' := by
  unfold convertFloat at h
  split_ifs at h
  · split at h
    · exact absurd h (by simp)
    · rename_i f hf
      split at h
      · exact absurd h (by simp)
      · simp only [Option.some.injEq] at h
        rw [← h, Ldexp_signbit] at hv
        exact head_of_takeWhile _ _ _ (ParseFloat_signbit _ f hf hv)
  · exact ParseFloat_signbit tok v h hv

theorem head_of_isHead (t l : List Char) (a : Char) (hp : t <+: l) (h : t.head? = some a) :
    l.head? = some a := by
  obtain ⟨r, rfl⟩ := hp
  cases t with
  | nil => simp at h
  | cons c cs => simpa using h

/-- A float64 with the sign bit comes only from a text whose first character
after the leading blanks is a minus sign. -/
theorem Sscanf_signbit (s : String) (v : Float64) (h : Sscanf s = some v)
    (hv : v.signbit = true) :
    ∃ rest, skipSpace s.data = some rest ∧ rest.head? = some '-' := by
  unfold Sscanf at h
  split at h
  · exact absurd h (by simp)
  · exact absurd h (by simp)
  · rename_i rest hne hs
    exact ⟨rest, hs, head_of_isHead _ _ _ (floatToken_isHead rest)
      (convertFloat_signbit _ v h hv)⟩

/-! ### A text that does not start with a number -/

theorem commonPrefixLen_three (l : List Char) (p0 p1 p2 : Char) (pat : List Char)
    (h : 3 ≤ commonPrefixLenIgnoreCase l (p0 :: p1 :: p2 :: pat)) :
    ∃ a b d tl, l = a :: b :: d :: tl ∧ lowerASCII a = p0 ∧ lowerASCII b = p1 ∧
      lowerASCII d = p2 := by
  match l, h with
  | [], h => simp [commonPrefixLenIgnoreCase] at h
  | [a], h =>
    simp only [commonPrefixLenIgnoreCase] at h
    split_ifs at h <;> omega
  | [a, b], h =>
    simp only [commonPrefixLenIgnoreCase] at h
    split_ifs at h <;> omega
  | a :: b :: d :: tl, h =>
    simp only [commonPrefixLenIgnoreCase] at h
    split_ifs at h with h1 h2 h3
    · exact ⟨a, b, d, tl, rfl, h1, h2, h3⟩
    all_goals omega

theorem specialInf_three (neg : Bool) (nsign : Nat) (s : List Char) (x : Float64 × Nat)
    (h : specialInf neg nsign s = some x) :
    3 ≤ commonPrefixLenIgnoreCase s "infinity".data := by
  change 3 ≤ commonPrefixLenIgnoreCase s ['i', 'n', 'f', 'i', 'n', 'i', 't', 'y']
  unfold specialInf at h
  simp only [] at h
  split_ifs at h <;> omega

theorem special_spells (t : List Char) (x : Float64 × Nat) (h : special t = some x) :
    spellsNaNOrInf t = true := by
  cases t with
  | nil => simp [special] at h
  | cons c rest =>
    unfold special at h
    simp only [] at h
    split_ifs at h with h1 h2 h3 h4 h5
    · obtain ⟨a, b, d, tl, rfl, ha, hb, hd⟩ :=
        commonPrefixLen_three _ _ _ _ _ (specialInf_three _ _ _ _ h)
      have hc : lowerASCII '+' = '+' := by decide
      simp [spellsNaNOrInf, h1, ha, hb, hd, hc]
    · obtain ⟨a, b, d, tl, rfl, ha, hb, hd⟩ :=
        commonPrefixLen_three _ _ _ _ _ (specialInf_three _ _ _ _ h)
      have hc : lowerASCII '-' = '-' := by decide
      simp [spellsNaNOrInf, h2, ha, hb, hd, hc]
    · obtain ⟨a, b, d, tl, heq, ha, hb, hd⟩ :=
        commonPrefixLen_three _ _ _ _ _ (specialInf_three _ _ _ _ h)
      rw [heq]
      simp [spellsNaNOrInf, ha, hb, hd]
    · obtain ⟨a, b, d, tl, heq, ha, hb, hd⟩ :=
        commonPrefixLen_three (c :: rest) 'n' 'a' 'n' [] (le_of_eq h5.symm)
      rw [heq]
      simp [spellsNaNOrInf, ha, hb, hd]

theorem spells_of_isHead (t l : List Char) (hp : t <+: l) (h : spellsNaNOrInf t = true) :
    spellsNaNOrInf l = true := by
  obtain ⟨r, rfl⟩ := hp
  unfold spellsNaNOrInf at h ⊢
  rw [List.map_append]
  split at h
  all_goals first
    | (rename_i heq; rw [heq]; rfl)
    | exact absurd h (by simp)

theorem startsDigits_of_isHead (t l : List Char) (hp : t <+: l)
    (h : startsDigits t = true) : startsDigits l = true := by
  obtain ⟨r, rfl⟩ := hp
  match t, h with
  | [c], h =>
    have hc : c ≠ '.' := by
      intro hc
      rw [hc] at h
      simp [startsDigits] at h
    simp only [startsDigits, hc, ↓reduceIte] at h
    simp [startsDigits, hc, h]
  | c :: d :: tl, h =>
    simpa [startsDigits] using h

theorem readSign_of_isHead (t l : List Char) (hp : t <+: l) (hne : t ≠ []) :
    (readSign t).2 <+: (readSign l).2 := by
  obtain ⟨r, rfl⟩ := hp
  cases t with
  | nil => exact absurd rfl hne
  | cons c tl =>
    simp only [readSign, List.cons_append]
    split_ifs
    · exact List.prefix_append _ _
    · exact List.prefix_append _ _
    · exact List.prefix_append (c :: tl) r

theorem startsNumber_of_isHead (t l : List Char) (hp : t <+: l)
    (h : startsNumber t = true) : startsNumber l = true := by
  have hne : t ≠ [] := by
    intro h0
    rw [h0] at h
    simp [startsNumber, readSign, startsDigits] at h
  exact startsDigits_of_isHead _ _ (readSign_of_isHead t l hp hne) h

theorem readMantissa_underscores (hex : Bool) (l : List Char) (m : Mantissa)
    (hm : m.underscores = true) : (readMantissa hex m l).1.underscores = true := by
  induction l generalizing m with
  | nil => simpa [readMantissa] using hm
  | cons c cs ih =>
    rw [readMantissa]
    by_cases h1 : c = '_'
    · rw [if_pos h1]
      exact ih _ rfl
    · rw [if_neg h1]
      by_cases h2 : c = '.'
      · rw [if_pos h2]
        by_cases h3 : m.sawdot = true
        · rw [if_pos h3]
          exact hm
        · rw [if_neg h3]
          exact ih _ hm
      · rw [if_neg h2]
        cases digitValue hex c with
        | none => exact hm
        | some v => exact ih _ hm

theorem readExponent_underscores (l : List Char) (e : Nat) :
    (readExponent e true l).2.1 = true := by
  induction l generalizing e with
  | nil => rfl
  | cons c cs ih =>
    rw [readExponent]
    by_cases h1 : c = '_'
    · rw [if_pos h1]
      exact ih _
    · rw [if_neg h1]
      by_cases h2 : isDecimalDigit c = true
      · rw [if_pos h2]
        exact ih _
      · rw [if_neg h2]

theorem underscoreOK_body (s : List Char) :
    underscoreOK s
      = match (readSign s).2 with
        | c0 :: c1 :: rest =>
          if c0 = '0' ∧ (lowerASCII c1 = 'b' ∨ lowerASCII c1 = 'o' ∨ lowerASCII c1 = 'x') then
            underscoreScan (lowerASCII c1 == 'x') '0' rest
          else underscoreScan false '^' (c0 :: c1 :: rest)
        | body => underscoreScan false '^' body := by
  cases s with
  | nil => rfl
  | cons c rest =>
    unfold underscoreOK readSign
    by_cases h1 : c = '+'
    · simp only [h1, or_true, ↓reduceIte]
      cases rest with
      | nil => rfl
      | cons a t => cases t <;> rfl
    · by_cases h2 : c = '-'
      · simp only [h2, true_or, ↓reduceIte]
        cases rest with
        | nil => rfl
        | cons a t => cases t <;> rfl
      · simp only [h1, h2, or_self, ↓reduceIte]
        cases rest <;> rfl

theorem readBase_noNumber (body : List Char) (h : startsDigits body = false) :
    readBase body = (false, body) := by
  match body, h with
  | [], _ => rfl
  | [_], _ => rfl
  | [_, _], _ => rfl
  | c0 :: c1 :: c2 :: rest, h =>
    have h0 : c0 ≠ '0' := by
      intro h0
      rw [h0] at h
      simp [startsDigits, isDecimalDigit] at h
    simp [readBase, h0]

/-- On a text that does not start as a number does, the digit loop either sees
no digit or meets an underscore that `underscoreOK` refuses. -/
theorem readMantissa_noNumber (s : List Char) (h : startsDigits (readSign s).2 = false) :
    (readMantissa false {} (readSign s).2).1.sawdigits = false ∨
    ((readMantissa false {} (readSign s).2).1.underscores = true ∧ underscoreOK s = false) := by
  rw [underscoreOK_body]
  generalize (readSign s).2 = body at h ⊢
  match body, h with
  | [], _ => exact Or.inl rfl
  | c :: cs, h =>
    by_cases h1 : c = '_'
    · subst h1
      refine Or.inr ⟨?_, ?_⟩
      · rw [readMantissa, if_pos rfl]
        exact readMantissa_underscores _ _ _ rfl
      · cases cs with
        | nil => simp [underscoreScan, isDecimalDigit]
        | cons d ds =>
          have h0 : ¬ ('_' = '0' ∧ (lowerASCII d = 'b' ∨ lowerASCII d = 'o' ∨ lowerASCII d = 'x')) :=
            fun hx => absurd hx.1 (by decide)
          simp only [h0, ↓reduceIte]
          simp [underscoreScan, isDecimalDigit]
    · by_cases h2 : c = '.'
      · subst h2
        match cs, h with
        | [], _ => exact Or.inl rfl
        | d :: ds, h =>
          have hd : isDecimalDigit d = false := by simpa [startsDigits] using h
          by_cases h3 : d = '_'
          · subst h3
            refine Or.inr ⟨?_, ?_⟩
            · rw [readMantissa, if_neg (by decide), if_pos rfl, if_neg (by decide),
                readMantissa, if_pos rfl]
              exact readMantissa_underscores _ _ _ rfl
            · have h0 : ¬ ('.' = '0' ∧ (lowerASCII '_' = 'b' ∨ lowerASCII '_' = 'o'
                  ∨ lowerASCII '_' = 'x')) := fun hx => absurd hx.1 (by decide)
              simp only [h0, ↓reduceIte]
              simp [underscoreScan, isDecimalDigit]
          · left
            rw [readMantissa, if_neg (by decide), if_pos rfl, if_neg (by decide),
              readMantissa, if_neg h3]
            by_cases h4 : d = '.'
            · rw [if_pos h4, if_pos rfl]
            · have hdv : digitValue false d = none := by simp [digitValue, hd]
              rw [if_neg h4, hdv]
      · left
        have hc : isDecimalDigit c = false := by simpa [startsDigits, h2] using h
        have hdv : digitValue false c = none := by simp [digitValue, hc]
        rw [readMantissa, if_neg h1, if_neg h2, hdv]

theorem readMagnitude_noNumber (s : List Char) (h : startsNumber s = false) :
    readMagnitude s (readSign s).2 = none := by
  have hb := readBase_noNumber _ h
  have hm := readMantissa_noNumber s h
  unfold readMagnitude
  rw [hb]
  simp only []
  rcases hrm : readMantissa false {} (readSign s).2 with ⟨m, rest⟩
  rw [hrm] at hm
  simp only [] at hm ⊢
  rcases hm with hm | ⟨hu, hok⟩
  · simp [hm]
  · by_cases hs : m.sawdigits = true
    · simp only [hs, hu, hok, readExponent_underscores, Bool.not_true, Bool.false_eq_true,
        ↓reduceIte, Bool.not_false, and_self, ite_self]
      split
      · split_ifs
        · split <;> rfl
        · rfl
      · rfl
    · simp [hs]

theorem readFloat_noNumber (s : List Char) (h : startsNumber s = false) :
    readFloat s = none := by
  unfold readFloat
  simp [readMagnitude_noNumber s h]

theorem ParseFloat_noNumber (t : List Char) (hn : startsNumber t = false)
    (hs : spellsNaNOrInf t = false) : ParseFloat t = none := by
  unfold ParseFloat
  split
  · rename_i v n hsp
    have := special_spells t _ hsp
    rw [hs] at this
    exact absurd this (by decide)
  · exact readFloat_noNumber t hn

/-- A head of a text that neither starts with a number nor spells NaN or
infinity is such a text as well. -/
theorem noNumber_of_isHead (t l : List Char) (hp : t <+: l) (hn : startsNumber l = false)
    (hs : spellsNaNOrInf l = false) :
    startsNumber t = false ∧ spellsNaNOrInf t = false := by
  refine ⟨?_, ?_⟩
  · cases h : startsNumber t with
    | false => rfl
    | true =>
      have := startsNumber_of_isHead _ _ hp h
      rw [hn] at this
      exact absurd this (by decide)
  · cases h : spellsNaNOrInf t with
    | false => rfl
    | true =>
      have := spells_of_isHead _ _ hp h
      rw [hs] at this
      exact absurd this (by decide)

theorem convertFloat_noNumber (tok : List Char) (hn : startsNumber tok = false)
    (hs : spellsNaNOrInf tok = false) : convertFloat tok = none := by
  unfold convertFloat
  split_ifs
  · have hp : tok.takeWhile (· != 'p') <+: tok := List.takeWhile_prefix _
    have hh := noNumber_of_isHead _ _ hp hn hs
    simp [ParseFloat_noNumber _ hh.1 hh.2]
  · exact ParseFloat_noNumber tok hn hs

/-- fmt.Sscanf reads no number from a text that, after its leading blanks,
starts neither with a number nor with a spelling of NaN or of infinity. -/
theorem Sscanf_noNumber (s : String) (h : startsValue s = false) : Sscanf s = none := by
  unfold Sscanf
  split
  · rfl
  · rfl
  · rename_i rest hne hskip
    have hv : spellsNaNOrInf rest = false ∧ startsNumber rest = false := by
      simpa [startsValue, hskip] using h
    have hh := noNumber_of_isHead _ _ (floatToken_isHead rest) hv.2 hv.1
    exact convertFloat_noNumber _ hh.1 hh.2

/-! ## The metrics: theorems -/

/-! ### parseFloat64 -/

/-- C13, refuted as stated: the texts "NaN", "Inf" and "12abc" are not decimal
numbers, and parseFloat64 gives NaN, +Inf and 12 for them, not 0. -/
theorem parseFloat64_nonzero_on_non_numbers :
    parseFloat64 "NaN" = .nan ∧ parseFloat64 "Inf" = .inf false ∧
    parseFloat64 "12abc" = Float64.ofNat 12 ∧
    parseFloat64 "NaN" ≠ .fin false 0 ∧ parseFloat64 "Inf" ≠ .fin false 0 ∧
    parseFloat64 "12abc" ≠ .fin false 0 := by
  decide

/-- C13, amended: for every text that does not start, after its leading blanks,
with a number (an optional sign, then a decimal digit, or a point and a decimal
digit) or with a spelling of NaN or of infinity, parseFloat64 returns 0; the
empty text is one of them. -/
theorem parseFloat64_zero_unless_starts_value (s : String) (h : startsValue s = false) :
    parseFloat64 s = .fin false 0 := by
  simp [parseFloat64, Sscanf_noNumber s h]

/-- C13 amended, at the texts "", "abc", "abc1", "file-2.iso" and "N/A 0", none
of which starts with a number or with a spelling of NaN or of infinity. -/
theorem parseFloat64_zero_unless_starts_value_witness :
    (startsValue "" = false ∧ startsValue "abc" = false ∧ startsValue "abc1" = false ∧
      startsValue "file-2.iso" = false ∧ startsValue "N/A 0" = false) ∧
    parseFloat64 "" = .fin false 0 ∧ parseFloat64 "abc" = .fin false 0 ∧
    parseFloat64 "abc1" = .fin false 0 ∧ parseFloat64 "file-2.iso" = .fin false 0 ∧
    parseFloat64 "N/A 0" = .fin false 0 :=
  ⟨by decide,
    parseFloat64_zero_unless_starts_value "" (by decide),
    parseFloat64_zero_unless_starts_value "abc" (by decide),
    parseFloat64_zero_unless_starts_value "abc1" (by decide),
    parseFloat64_zero_unless_starts_value "file-2.iso" (by decide),
    parseFloat64_zero_unless_starts_value "N/A 0" (by decide)⟩

/-- C14, refuted as stated: parseFloat64 of "-5" is -5, which is below 0. -/
theorem parseFloat64_negative :
    parseFloat64 "-5" = .fin true (5 * Float64.one) ∧
    (parseFloat64 "-5").lt (Float64.ofNat 0) = true := by
  decide

/-- C14, amended: parseFloat64 is below 0 only for a text whose first character
after the leading blanks is a minus sign; for every other text it is not below
0, and for a text of decimal digits it is a finite number with the plus sign. -/
theorem parseFloat64_not_negative (s : String) :
    ((∀ rest, skipSpace s.data = some rest → rest.head? ≠ some '-') →
      (parseFloat64 s).lt (Float64.ofNat 0) = false) ∧
    (s.data ≠ [] → (∀ c ∈ s.data, isDecimalDigit c = true) →
      ∃ u, parseFloat64 s = .fin false u) := by
  constructor
  · intro h
    cases hlt : (parseFloat64 s).lt (Float64.ofNat 0) with
    | false => rfl
    | true =>
      have hsign := Float64.signbit_of_lt_zero _ hlt
      cases hsc : Sscanf s with
      | none =>
        simp [parseFloat64, hsc, Float64.signbit] at hsign
      | some v =>
        have hv : parseFloat64 s = v := by simp [parseFloat64, hsc]
        rw [hv] at hsign
        obtain ⟨rest, hskip, hhead⟩ := Sscanf_signbit s v hsc hsign
        exact absurd hhead (h rest hskip)
  · intro hne hall
    rw [parseFloat64, Sscanf_digits s hne hall, Float64.ofScaled_digits]
    split_ifs
    · exact ⟨_, rfl⟩
    · exact ⟨0, rfl⟩

/-- C14 amended, at the text "1024". -/
theorem parseFloat64_not_negative_witness :
    (parseFloat64 "1024").lt (Float64.ofNat 0) = false ∧
    parseFloat64 "1024" = Float64.ofNat 1024 :=
  ⟨(parseFloat64_not_negative "1024").1 (by
      intro rest h
      have hk : skipSpace "1024".data = some ['1', '0', '2', '4'] := by decide
      rw [hk] at h
      cases h
      decide),
    by decide⟩

/-! ### The progress ratio -/

/-- C15: when the text of the total parses to a zero, the progress is 0 whatever
the text of the completed length is; the division is evaluated only when the
parsed total is above 0, so never with a zero divisor. -/
theorem progress_zero_of_total_zero (task : TellStatus) (neg : Bool)
    (h : parseFloat64 task.TotalLength = .fin neg 0) :
    (createTaskItemForData task).progress = .fin false 0 ∧
    ((createTaskItemForData task).progress
      = if task.TotalLength ≠ "0" ∧ task.CompletedLength ≠ "0" ∧
            (Float64.ofNat 0).lt (parseFloat64 task.TotalLength) = true
        then (parseFloat64 task.CompletedLength).div (parseFloat64 task.TotalLength)
        else .fin false 0) := by
  refine ⟨?_, progress_eq task⟩
  rw [progress_eq, h, Float64.zero_lt_zero]
  simp

/-- C15 at the totals "0", "", "00" and "abc", each with 512 completed. -/
theorem progress_zero_of_total_zero_witness :
    parseFloat64 "0" = .fin false 0 ∧ parseFloat64 "" = .fin false 0 ∧
    parseFloat64 "00" = .fin false 0 ∧ parseFloat64 "abc" = .fin false 0 ∧
    (createTaskItemForData { TotalLength := "0", CompletedLength := "512" }).progress
      = .fin false 0 ∧
    (createTaskItemForData { TotalLength := "", CompletedLength := "512" }).progress
      = .fin false 0 ∧
    (createTaskItemForData { TotalLength := "00", CompletedLength := "512" }).progress
      = .fin false 0 ∧
    (createTaskItemForData { TotalLength := "abc", CompletedLength := "512" }).progress
      = .fin false 0 :=
  ⟨by decide, by decide, by decide, by decide,
    (progress_zero_of_total_zero { TotalLength := "0", CompletedLength := "512" } false
      (by decide)).1,
    by decide, by decide, by decide⟩

/-- C16, refuted as stated: with 10 completed of a total of 5 the progress is 2,
which is above 1. -/
theorem progress_above_one :
    (createTaskItemForData { TotalLength := "5", CompletedLength := "10" }).progress
      = Float64.ofNat 2 ∧
    (Float64.ofNat 1).lt
      (createTaskItemForData { TotalLength := "5", CompletedLength := "10" }).progress
      = true := by
  decide

/-- C16, amended: when the parsed completed length is a finite number with
`0 <= completed <= total`, the progress lies between 0 and 1, bounds
included. -/
theorem progress_in_unit_interval (task : TellStatus) (neg : Bool) (x : Nat)
    (hfin : parseFloat64 task.CompletedLength = .fin neg x)
    (h0 : (Float64.ofNat 0).le (parseFloat64 task.CompletedLength) = true)
    (hle : (parseFloat64 task.CompletedLength).le (parseFloat64 task.TotalLength) = true) :
    (Float64.ofNat 0).le (createTaskItemForData task).progress = true ∧
    (createTaskItemForData task).progress.le (Float64.ofNat 1) = true := by
  have hzero : (Float64.ofNat 0).le (.fin false 0) = true ∧
      (Float64.fin false 0).le (Float64.ofNat 1) = true := by
    constructor
    · decide
    · simp [Float64.le, Float64.ofNat, Float64.signed]
  rw [progress_eq]
  split_ifs with hg
  · obtain ⟨-, -, hlt⟩ := hg
    rw [hfin] at h0 hle ⊢
    have hx : neg = false ∨ x = 0 := by
      cases neg
      · exact Or.inl rfl
      · right
        simp [Float64.le, Float64.ofNat, Float64.signed] at h0
        omega
    cases ht : parseFloat64 task.TotalLength with
    | nan => rw [ht] at hlt; simp [Float64.lt, Float64.ofNat] at hlt
    | inf b =>
      rw [ht] at hlt
      cases b
      · cases neg <;> simp [Float64.div, Float64.le, Float64.ofNat, Float64.signed]
      · simp [Float64.lt, Float64.ofNat] at hlt
    | fin b y =>
      rw [ht] at hlt hle
      have hb : b = false ∧ 0 < y := by
        cases b
        · simp [Float64.lt, Float64.ofNat, Float64.signed] at hlt
          exact ⟨rfl, hlt⟩
        · simp [Float64.lt, Float64.ofNat, Float64.signed] at hlt
          omega
      obtain ⟨rfl, hy⟩ := hb
      have hxy : x ≤ y := by
        rcases hx with rfl | rfl
        · simpa [Float64.le, Float64.signed] using hle
        · omega
      have hy' : y ≠ 0 := by omega
      have hr : roundUnits (x * Float64.one) y ≤ 2 ^ 1074 := by
        apply roundUnits_le _ _ _ hy
        rw [Nat.mul_comm]
        exact Nat.mul_le_mul_left _ hxy
      have hov : roundUnits (x * Float64.one) y < Float64.overflow :=
        lt_of_le_of_lt hr (Nat.pow_lt_pow_right (by norm_num) (by norm_num))
      have hdiv : (Float64.fin neg x).div (.fin false y)
          = .fin neg (roundUnits (x * Float64.one) y) := by
        simp [Float64.div, hy', Float64.ofRatio, hov]
      rw [hdiv]
      rcases hx with rfl | rfl
      · constructor
        · simp [Float64.le, Float64.ofNat, Float64.signed]
        · simpa [Float64.le, Float64.ofNat, Float64.signed, Float64.one] using hr
      · rw [Nat.zero_mul, roundUnits_zero y hy]
        cases neg <;> simp [Float64.le, Float64.ofNat, Float64.signed]
  · exact hzero

/-- C16 amended, at 512 completed of a total of 1024: the progress is one
half. -/
theorem progress_in_unit_interval_witness :
    parseFloat64 "512" = .fin false (512 * Float64.one) ∧
    (Float64.ofNat 0).le
      (createTaskItemForData { TotalLength := "1024", CompletedLength := "512" }).progress
      = true ∧
    (createTaskItemForData { TotalLength := "1024", CompletedLength := "512" }).progress.le
      (Float64.ofNat 1) = true :=
  ⟨by decide,
    progress_in_unit_interval { TotalLength := "1024", CompletedLength := "512" } false
      (512 * Float64.one) (by decide) (by decide) (by decide)⟩

/-- C17, refuted as stated: for completed = total = 10^400 - 1, written with 400
digits, the quotient is 1 but the progress is 0, because the text of the total is
beyond the range of float64 and does not parse. -/
theorem progress_zero_for_huge_total :
    decimalValue (List.replicate 400 '9') = 10 ^ 400 - 1 ∧
    parseFloat64 (String.mk (List.replicate 400 '9')) = .fin false 0 ∧
    (createTaskItemForData
      { TotalLength := String.mk (List.replicate 400 '9'),
        CompletedLength := String.mk (List.replicate 400 '9') }).progress = .fin false 0 ∧
    (createTaskItemForData
      { TotalLength := String.mk (List.replicate 400 '9'),
        CompletedLength := String.mk (List.replicate 400 '9') }).progress ≠ Float64.ofNat 1 := by
  decide

/-- C17, amended: for texts of decimal digits that spell natural numbers
`completed <= total` with `0 < total <= 2^1023`, the progress is the float64
quotient of the float64 numbers nearest to completed and to total, and it is 0
when completed is 0. -/
theorem progress_of_decimal_lengths (task : TellStatus)
    (hC : task.CompletedLength.data ≠ [] ∧
      ∀ c ∈ task.CompletedLength.data, isDecimalDigit c = true)
    (hT : task.TotalLength.data ≠ [] ∧ ∀ c ∈ task.TotalLength.data, isDecimalDigit c = true)
    (hle : decimalValue task.CompletedLength.data ≤ decimalValue task.TotalLength.data)
    (hpos : 0 < decimalValue task.TotalLength.data)
    (hmax : decimalValue task.TotalLength.data ≤ 2 ^ 1023) :
    (createTaskItemForData task).progress
      = (Float64.ofRatio false (decimalValue task.CompletedLength.data) 1).div
          (Float64.ofRatio false (decimalValue task.TotalLength.data) 1) ∧
    (decimalValue task.CompletedLength.data = 0 →
      (createTaskItemForData task).progress = .fin false 0) := by
  have hcmax : decimalValue task.CompletedLength.data ≤ 2 ^ 1023 := le_trans hle hmax
  have hpT := parseFloat64_digits task.TotalLength hT.1 hT.2 hmax
  have hpC := parseFloat64_digits task.CompletedLength hC.1 hC.2 hcmax
  have hrt : 0 < roundUnits (decimalValue task.TotalLength.data * Float64.one) 1 := by
    apply roundUnits_pos
    calc 2 ^ 53 ≤ Float64.one := one_ge_pow53
      _ = 1 * Float64.one := (Nat.one_mul _).symm
      _ ≤ decimalValue task.TotalLength.data * Float64.one := Nat.mul_le_mul_right _ hpos
  have hT0 : task.TotalLength ≠ "0" := by
    intro h0
    rw [h0] at hpos
    exact absurd hpos (by decide)
  have hzero : task.CompletedLength = "0" → decimalValue task.CompletedLength.data = 0 := by
    intro h0
    rw [h0]
    decide
  have hprog : (createTaskItemForData task).progress
      = (Float64.ofRatio false (decimalValue task.CompletedLength.data) 1).div
          (Float64.ofRatio false (decimalValue task.TotalLength.data) 1) := by
    rw [Float64.ofRatio_nat _ hcmax, Float64.ofRatio_nat _ hmax, progress_eq, hpT, hpC,
      Float64.zero_lt_fin _ hrt]
    by_cases hc0 : task.CompletedLength = "0"
    · have hz := hzero hc0
      rw [hz, Nat.zero_mul, roundUnits_zero 1 (by norm_num), Float64.zero_div_fin _ hrt]
      simp [hc0]
    · simp [hT0, hc0]
  refine ⟨hprog, ?_⟩
  intro hz
  rw [hprog, Float64.ofRatio_nat _ hcmax, Float64.ofRatio_nat _ hmax, hz, Nat.zero_mul,
    roundUnits_zero 1 (by norm_num), Float64.zero_div_fin _ hrt]

/-- C17 amended, at 512 completed of a total of 1024: the progress is one
half. -/
theorem progress_of_decimal_lengths_witness :
    (createTaskItemForData { TotalLength := "1024", CompletedLength := "512" }).progress
      = (Float64.ofRatio false 512 1).div (Float64.ofRatio false 1024 1) ∧
    (Float64.ofRatio false 512 1).div (Float64.ofRatio false 1024 1)
      = .fin false (2 ^ 1073) :=
  ⟨(progress_of_decimal_lengths { TotalLength := "1024", CompletedLength := "512" }
      ⟨by decide, by decide⟩ ⟨by decide, by decide⟩ (by decide) (by decide) (by decide)).1,
    by decide⟩

/-! ### formatSpeed and formatSize -/

/-- C18: the golden outputs of formatSpeed. -/
theorem formatSpeed_golden :
    formatSpeed (Float64.ofNat 0) = "0 B/s" ∧
    formatSpeed (Float64.ofNat 1023) = "1023 B/s" ∧
    formatSpeed (Float64.ofNat 1024) = "1.0 KB/s" ∧
    formatSpeed (Float64.ofNat 1048576) = "1.0 MB/s" ∧
    formatSpeed (Float64.ofNat 1073741824) = "1.00 GB/s" := by
  decide

/-- The digits of a field are as many as its width. -/
theorem fixedDigits_length (width n : Nat) : (fixedDigits width n).length = width := by
  induction width generalizing n with
  | zero => rfl
  | succ k ih => simp [fixedDigits, ih]

/-- C19: for a byte rate `b` that is not below 0, formatSpeed picks the unit by
the thresholds 1024, 1024² and 1024³: below 1024 it prints `b` with no decimals
and " B/s", from 1024 on `b/1024` with one decimal and " KB/s", from 1024² on
`b/1024²` with one decimal and " MB/s", from 1024³ on `b/1024³` with two
decimals and " GB/s"; one of the four cases holds. A finite number printed with
`prec > 0` decimals is its whole part, a point and `prec` digits. -/
theorem formatSpeed_units (b : Float64) (hb : (Float64.ofNat 0).le b = true) :
    (b.lt (Float64.ofNat 1024) = true → formatSpeed b = fmtFixed 0 b ++ " B/s") ∧
    ((Float64.ofNat 1024).le b = true → b.lt (Float64.ofNat (1024 * 1024)) = true →
      formatSpeed b = fmtFixed 1 (b.div (Float64.ofNat 1024)) ++ " KB/s") ∧
    ((Float64.ofNat (1024 * 1024)).le b = true →
      b.lt (Float64.ofNat (1024 * 1024 * 1024)) = true →
      formatSpeed b = fmtFixed 1 (b.div (Float64.ofNat (1024 * 1024))) ++ " MB/s") ∧
    ((Float64.ofNat (1024 * 1024 * 1024)).le b = true →
      formatSpeed b = fmtFixed 2 (b.div (Float64.ofNat (1024 * 1024 * 1024))) ++ " GB/s") ∧
    (b.lt (Float64.ofNat 1024) = true ∨
      ((Float64.ofNat 1024).le b = true ∧ b.lt (Float64.ofNat (1024 * 1024)) = true) ∨
      ((Float64.ofNat (1024 * 1024)).le b = true ∧
        b.lt (Float64.ofNat (1024 * 1024 * 1024)) = true) ∨
      (Float64.ofNat (1024 * 1024 * 1024)).le b = true) ∧
    (∀ (prec : Nat) (neg : Bool) (u : Nat), 0 < prec →
      ∃ (whole : Nat) (decimals : List Char), decimals.length = prec ∧
        fmtFixed prec (.fin neg u)
          = (if neg then "-" else "") ++ (toString whole ++ "." ++ String.mk decimals)) := by
  have total : ∀ n : Nat, b.lt (Float64.ofNat n) = true ∨ (Float64.ofNat n).le b = true := by
    intro n
    rcases b with _ | neg | ⟨neg, u⟩
    · simp [Float64.le, Float64.ofNat] at hb
    · cases neg <;> simp [Float64.lt, Float64.le, Float64.ofNat]
    · simp only [Float64.lt, Float64.le, Float64.ofNat, decide_eq_true_eq]
      exact lt_or_le _ _
  have mono : ∀ n m : Nat, n ≤ m → (Float64.ofNat m).le b = true →
      b.lt (Float64.ofNat n) = false := fun n m hnm hm =>
    Float64.lt_eq_false_of_le _ _
      (Float64.le_trans _ _ _ (Float64.ofNat_le_ofNat n m hnm) hm)
  refine ⟨?_, ?_, ?_, ?_, ?_, ?_⟩
  · intro h
    simp [formatSpeed, h]
  · intro h1 h2
    simp [formatSpeed, mono 1024 1024 (le_refl _) h1, h2]
  · intro h1 h2
    simp [formatSpeed, mono 1024 (1024 * 1024) (by norm_num) h1,
      mono (1024 * 1024) (1024 * 1024) (le_refl _) h1, h2]
  · intro h1
    simp [formatSpeed, mono 1024 (1024 * 1024 * 1024) (by norm_num) h1,
      mono (1024 * 1024) (1024 * 1024 * 1024) (by norm_num) h1,
      mono (1024 * 1024 * 1024) (1024 * 1024 * 1024) (le_refl _) h1]
  · rcases total 1024 with h | h
    · exact Or.inl h
    · rcases total (1024 * 1024) with h2 | h2
      · exact Or.inr (Or.inl ⟨h, h2⟩)
      · rcases total (1024 * 1024 * 1024) with h3 | h3
        · exact Or.inr (Or.inr (Or.inl ⟨h2, h3⟩))
        · exact Or.inr (Or.inr (Or.inr h3))
  · intro prec neg u hprec
    refine ⟨roundHalfEven (u * 10 ^ prec) Float64.one / 10 ^ prec,
      fixedDigits prec (roundHalfEven (u * 10 ^ prec) Float64.one % 10 ^ prec),
      fixedDigits_length _ _, ?_⟩
    have hp : prec ≠ 0 := by omega
    simp [fmtFixed, hp]

/-- C19 at 1536 bytes per second, which is printed in KB/s with one decimal. -/
theorem formatSpeed_units_witness :
    (Float64.ofNat 0).le (Float64.ofNat 1536) = true ∧
    formatSpeed (Float64.ofNat 1536)
      = fmtFixed 1 ((Float64.ofNat 1536).div (Float64.ofNat 1024)) ++ " KB/s" ∧
    formatSpeed (Float64.ofNat 1536) = "1.5 KB/s" :=
  ⟨by decide,
    (formatSpeed_units (Float64.ofNat 1536) (by decide)).2.1 (by decide) (by decide),
    by decide⟩

/-- C20: for every float64 `x`, formatSpeed prints what formatSize prints,
followed by "/s"; formatSize of 1536 is "1.5 KB". -/
theorem formatSpeed_eq_formatSize (x : Float64) :
    formatSpeed x = formatSize x ++ "/s" ∧
    formatSize (Float64.ofNat 1536) = "1.5 KB" := by
  refine ⟨?_, by decide⟩
  unfold formatSpeed formatSize
  split_ifs <;> rw [String.append_assoc] <;> rfl

/-! ## The display of a task: theorems -/

/-- C21: the display name of createTaskItemForData is the path of the first
file entry when there is one and its path is not empty, "未命名任务" when there
is one and its path is empty, and "未知任务" when the task has no file entry;
the file entries after the first one never change the name. -/
theorem createTaskItemForData_name (task : TellStatus) :
    (∀ (file : FileInfo) (rest : List FileInfo), task.Files = file :: rest →
        file.Path ≠ "" → (createTaskItemForData task).name = file.Path) ∧
    (∀ (file : FileInfo) (rest : List FileInfo), task.Files = file :: rest →
        file.Path = "" → (createTaskItemForData task).name = "未命名任务") ∧
    (task.Files = [] → (createTaskItemForData task).name = "未知任务") ∧
    (∀ (file : FileInfo) (rest later : List FileInfo), task.Files = file :: rest →
        (createTaskItemForData { task with Files := file :: later }).name
          = (createTaskItemForData task).name) := by
  refine ⟨?_, ?_, ?_, ?_⟩
  · intro file rest hf hp
    simp [createTaskItemForData, hf, hp]
  · intro file rest hf hp
    simp [createTaskItemForData, hf, hp]
  · intro hf
    simp [createTaskItemForData, hf]
  · intro file rest later hf
    simp [createTaskItemForData, hf]

/-- C21 at a task of two files, at a task whose first file has no path, and at
a task without files. -/
theorem createTaskItemForData_name_witness :
    (createTaskItemForData
        { Files := [fileOf "/downloads/a.iso", fileOf "/downloads/b.iso"] }).name
      = "/downloads/a.iso" ∧
    (createTaskItemForData { Files := [fileOf "", fileOf "/downloads/b.iso"] }).name
      = "未命名任务" ∧
    (createTaskItemForData { Files := [] }).name = "未知任务" ∧
    (createTaskItemForData
        { Files := [fileOf "/downloads/a.iso", fileOf "/downloads/c.iso"] }).name
      = (createTaskItemForData
        { Files := [fileOf "/downloads/a.iso", fileOf "/downloads/b.iso"] }).name :=
  ⟨(createTaskItemForData_name
        { Files := [fileOf "/downloads/a.iso", fileOf "/downloads/b.iso"] }).1
      _ _ rfl (by decide),
    (createTaskItemForData_name
        { Files := [fileOf "", fileOf "/downloads/b.iso"] }).2.1 _ _ rfl rfl,
    (createTaskItemForData_name { Files := [] }).2.2.1 rfl,
    (createTaskItemForData_name
        { Files := [fileOf "/downloads/a.iso", fileOf "/downloads/b.iso"] }).2.2.2
      _ _ [fileOf "/downloads/c.iso"] rfl⟩

/-! ## Pause, Unpause, Remove and the reconnection: theorems -/

/-- C22: for every identifier `gid`, each of Pause, Unpause and Remove sends
the parameter list `["token:" + secret, gid]` and returns nil exactly when
sendRequest returned an envelope and that envelope has no error descriptor;
the `Result` of the envelope is not read, so an envelope without an error
descriptor is a success whatever its result is. -/
theorem pause_unpause_remove_success (w : World) (c : Client) (gid : String) :
    ((PauseRequest c gid).Params = [.str ("token:" ++ c.token), .str gid] ∧
      (UnpauseRequest c gid).Params = [.str ("token:" ++ c.token), .str gid] ∧
      (RemoveRequest c gid).Params = [.str ("token:" ++ c.token), .str gid]) ∧
    (Pause w c gid = none ↔
      ∃ response, sendRequest w c (PauseRequest c gid) = .ok response ∧
        response.Error = none) ∧
    (Unpause w c gid = none ↔
      ∃ response, sendRequest w c (UnpauseRequest c gid) = .ok response ∧
        response.Error = none) ∧
    (Remove w c gid = none ↔
      ∃ response, sendRequest w c (RemoveRequest c gid) = .ok response ∧
        response.Error = none) ∧
    (∀ (jsonrpc result id : String),
      (sendRequest w c (PauseRequest c gid)
          = .ok { JSONRPC := jsonrpc, Result := result, Error := none, ID := id } →
        Pause w c gid = none) ∧
      (sendRequest w c (UnpauseRequest c gid)
          = .ok { JSONRPC := jsonrpc, Result := result, Error := none, ID := id } →
        Unpause w c gid = none) ∧
      (sendRequest w c (RemoveRequest c gid)
          = .ok { JSONRPC := jsonrpc, Result := result, Error := none, ID := id } →
        Remove w c gid = none)) := by
  refine ⟨⟨rfl, rfl, rfl⟩, ?_, ?_, ?_, ?_⟩
  · rcases h : sendRequest w c (PauseRequest c gid) with err | ⟨j, r, _ | e, i⟩ <;>
      simp [Pause, h]
  · rcases h : sendRequest w c (UnpauseRequest c gid) with err | ⟨j, r, _ | e, i⟩ <;>
      simp [Unpause, h]
  · rcases h : sendRequest w c (RemoveRequest c gid) with err | ⟨j, r, _ | e, i⟩ <;>
      simp [Remove, h]
  · intro jsonrpc result id
    refine ⟨?_, ?_, ?_⟩
    · intro h
      simp [Pause, h]
    · intro h
      simp [Unpause, h]
    · intro h
      simp [Remove, h]

/-- C22 at three endpoints: one that answers with neither result nor error
descriptor, one that answers with the result `null`, and one that answers with
the result `"OK"`. -/
theorem pause_unpause_remove_success_witness :
    Pause (bodyWorld bareBody) localClient "2089b05ecca3d829" = none ∧
    Unpause (bodyWorld (okBody "null")) localClient "2089b05ecca3d829" = none ∧
    Remove (statusWorld 200) localClient "2089b05ecca3d829" = none ∧
    Pause (notFoundWorld 1) localClient "2089b05ecca3d829" ≠ none ∧
    Pause downWorld localClient "2089b05ecca3d829" ≠ none :=
  ⟨(pause_unpause_remove_success (bodyWorld bareBody) localClient "2089b05ecca3d829").2.2.2.2
      "2.0" "" "1" |>.1 (by decide),
    (pause_unpause_remove_success (bodyWorld (okBody "null")) localClient
      "2089b05ecca3d829").2.2.2.2 "2.0" "null" "1" |>.2.1 (by decide),
    (pause_unpause_remove_success (statusWorld 200) localClient
      "2089b05ecca3d829").2.2.2.2 "2.0" "\"OK\"" "1" |>.2.2 (by decide),
    by decide, by decide⟩

/-- C23: whatever the three sub-fetches return, getTaskCount is at most the
length of what getAllTasks returns; the two are equal when all three sub-fetches
succeed; with a nil client getTaskCount is 0 and getAllTasks is empty. -/
theorem getTaskCount_le_getAllTasks_length (w : World) (a : App) :
    getTaskCount w a ≤ ((getAllTasks w a).length : Int) ∧
    (∀ client, a.aria2Client = some client →
      (TellActive w client).2 = none → (TellWaiting w client 0 1000).2 = none →
      (TellStopped w client 0 100).2 = none →
      getTaskCount w a = ((getAllTasks w a).length : Int)) ∧
    (a.aria2Client = none → getTaskCount w a = 0 ∧ getAllTasks w a = []) := by
  refine ⟨?_, ?_, ?_⟩
  · unfold getTaskCount getAllTasks
    rcases a.aria2Client with _ | client
    · simp
    · rcases hA : TellActive w client with ⟨A, _ | eA⟩ <;>
        rcases hW : TellWaiting w client 0 1000 with ⟨W, _ | eW⟩ <;>
        rcases hS : TellStopped w client 0 100 with ⟨S, _ | eS⟩ <;>
        simp [hA, hW, hS] <;> omega
  · intro client hc hA hW hS
    unfold getTaskCount getAllTasks
    rw [hc]
    rcases hA' : TellActive w client with ⟨A, _ | eA⟩
    · rcases hW' : TellWaiting w client 0 1000 with ⟨W, _ | eW⟩
      · rcases hS' : TellStopped w client 0 100 with ⟨S, _ | eS⟩
        · simp [hA', hW', hS']
          omega
        · rw [hS'] at hS
          cases hS
      · rw [hW'] at hW
        cases hW
    · rw [hA'] at hA
      cases hA
  · intro hc
    simp [getTaskCount, getAllTasks, hc]

/-- C23 at an endpoint whose waiting fetch fails (2 against 5), at one whose
three fetches succeed (4 and 4), and at an App without a client. -/
theorem getTaskCount_le_getAllTasks_length_witness :
    (getTaskCount scenarioWorld localApp = 2 ∧ (getAllTasks scenarioWorld localApp).length = 5 ∧
      getTaskCount scenarioWorld localApp ≤ ((getAllTasks scenarioWorld localApp).length : Int)) ∧
    (getTaskCount overlapWorld localApp = 4 ∧
      getTaskCount overlapWorld localApp
        = ((getAllTasks overlapWorld localApp).length : Int)) ∧
    (getTaskCount scenarioWorld { localApp with aria2Client := none } = 0 ∧
      getAllTasks scenarioWorld { localApp with aria2Client := none } = []) :=
  ⟨⟨by decide, by decide, (getTaskCount_le_getAllTasks_length scenarioWorld localApp).1⟩,
    ⟨by decide,
      (getTaskCount_le_getAllTasks_length overlapWorld localApp).2.1 localClient rfl
        (by decide) (by decide) (by decide)⟩,
    (getTaskCount_le_getAllTasks_length scenarioWorld { localApp with aria2Client := none }).2.2
      rfl⟩

/-- C24: with `newClient` the client NewClient builds from the host, port,
token, protocol and path of the configuration, reconnectAria2 takes its success
branch exactly when GetVersion on `newClient` returns no error; it then makes
`newClient` the client of the App and leaves the configuration as it was. When
GetVersion returns an error the App is left as it was, with its previous client,
and the error window shows the text of that error. So, unless the previous
client already was `newClient`, the client after the call is `newClient` exactly
when GetVersion returned no error. -/
theorem reconnectAria2_replaces_iff (w : World) (a : App) :
    ((reconnectAria2 w a).2 = .success "已重新连接到 aria2" ↔
      (GetVersion w (NewClient a.config.Host a.config.Port a.config.Token a.config.Protocol
        a.config.Path)).2 = none) ∧
    ((GetVersion w (NewClient a.config.Host a.config.Port a.config.Token a.config.Protocol
        a.config.Path)).2 = none →
      (reconnectAria2 w a).1.aria2Client
        = some (NewClient a.config.Host a.config.Port a.config.Token a.config.Protocol
            a.config.Path) ∧
      (reconnectAria2 w a).1.aria2Client
        = some { rpcURL := a.config.Protocol ++ "://" ++ a.config.Host ++ ":"
                   ++ toString a.config.Port ++ a.config.Path,
                 token := a.config.Token } ∧
      (reconnectAria2 w a).1.config = a.config) ∧
    (∀ err, (GetVersion w (NewClient a.config.Host a.config.Port a.config.Token
        a.config.Protocol a.config.Path)).2 = some err →
      (reconnectAria2 w a).1 = a ∧
      (reconnectAria2 w a).2 = .error ("连接 aria2 失败: " ++ err.Error)) ∧
    (a.aria2Client ≠ some (NewClient a.config.Host a.config.Port a.config.Token
        a.config.Protocol a.config.Path) →
      ((reconnectAria2 w a).1.aria2Client
          = some (NewClient a.config.Host a.config.Port a.config.Token a.config.Protocol
              a.config.Path) ↔
        (GetVersion w (NewClient a.config.Host a.config.Port a.config.Token a.config.Protocol
          a.config.Path)).2 = none)) := by
  unfold reconnectAria2
  simp only []
  rcases GetVersion w (NewClient a.config.Host a.config.Port a.config.Token a.config.Protocol
      a.config.Path) with ⟨v, _ | e⟩
  · simp [NewClient]
  · simp

/-- C24 at an App whose configuration was edited: behind an engine that
answers, the client becomes the one of the edited configuration; behind a dead
endpoint the App keeps the client it had. -/
theorem reconnectAria2_replaces_iff_witness :
    ((reconnectAria2 versionWorld editedApp).1.aria2Client
        = some (NewClient "nas.local" 6801 "s3cret" "https" "/rpc") ∧
      (reconnectAria2 versionWorld editedApp).1.aria2Client
        = some { rpcURL := "https://nas.local:6801/rpc", token := "s3cret" } ∧
      (reconnectAria2 versionWorld editedApp).1.config = editedApp.config) ∧
    ((reconnectAria2 downWorld editedApp).1 = editedApp ∧
      (reconnectAria2 downWorld editedApp).2
        = .error "连接 aria2 失败: connection reset by peer") ∧
    (reconnectAria2 downWorld editedApp).1.aria2Client = some localClient :=
  ⟨(reconnectAria2_replaces_iff versionWorld editedApp).2.1 (by decide),
    (reconnectAria2_replaces_iff downWorld editedApp).2.2.1 connReset (by decide),
    by decide⟩

/-! ## The size text, the speed text and the rounding: theorems -/

/-- An exact quotient is not changed by the rounding. -/
theorem roundHalfEven_mul (k d : Nat) (hd : 0 < d) : roundHalfEven (k * d) d = k := by
  unfold roundHalfEven
  simp only [Nat.mul_mod_left, Nat.mul_zero, hd, ↓reduceIte]
  exact Nat.mul_div_cancel k hd

/-- With no decimals, a whole number of ones is printed as that number. -/
theorem fmtFixed_zero_whole (neg : Bool) (k : Nat) :
    fmtFixed 0 (.fin neg (k * Float64.one))
      = (if neg then "-" else "") ++ toString k := by
  have hone : 0 < Float64.one := by unfold Float64.one; positivity
  simp only [fmtFixed, pow_zero, Nat.mul_one, Nat.div_one, ↓reduceIte,
    roundHalfEven_mul k Float64.one hone]

/-- An integer below 1024 is below the first threshold of the unit ladder. -/
theorem Float64.whole_lt_1024 (b : Int) (hb : b < 1024) :
    (Float64.fin (decide (b < 0)) (b.natAbs * Float64.one)).lt (Float64.ofNat 1024) = true := by
  have hone : (0 : Int) < (Float64.one : Int) := by
    have : 0 < Float64.one := by unfold Float64.one; positivity
    exact_mod_cast this
  simp only [Float64.lt, Float64.ofNat, Float64.signed, decide_eq_true_eq]
  by_cases hneg : b < 0
  · simp only [hneg, decide_True, ↓reduceIte, Bool.false_eq_true]
    have h1 : (0 : Int) ≤ ((b.natAbs * Float64.one : Nat) : Int) := Int.ofNat_nonneg _
    have h2 : (0 : Int) < ((1024 * Float64.one : Nat) : Int) := by
      push_cast
      exact Int.mul_pos (by norm_num) hone
    omega
  · simp only [hneg, decide_False, Bool.false_eq_true, ↓reduceIte]
    have hk : b.natAbs < 1024 := by omega
    exact_mod_cast Nat.mul_lt_mul_of_pos_right hk (by exact_mod_cast hone)

/-- C25: when the text of the completed length or the text of the total is
exactly "0", the size text is "0 B / 0 B" and the progress is 0, whatever the
other text is; otherwise the size text is formatSize of the parsed completed
length, " / ", and formatSize of the parsed total. -/
theorem sizeText_zero_guard (task : TellStatus) :
    ((task.CompletedLength = "0" ∨ task.TotalLength = "0") →
      (createTaskItemForData task).sizeText = "0 B / 0 B" ∧
      (createTaskItemForData task).progress = .fin false 0) ∧
    (¬ (task.CompletedLength = "0" ∨ task.TotalLength = "0") →
      (createTaskItemForData task).sizeText
        = formatSize (parseFloat64 task.CompletedLength) ++ " / "
            ++ formatSize (parseFloat64 task.TotalLength)) := by
  refine ⟨?_, ?_⟩
  · intro h
    have hg : ¬ (task.TotalLength ≠ "0" ∧ task.CompletedLength ≠ "0") := by
      rintro ⟨hT, hC⟩
      rcases h with h | h
      · exact hC h
      · exact hT h
    refine ⟨?_, ?_⟩
    · unfold createTaskItemForData
      simp only [hg, ↓reduceIte]
    · rw [progress_eq]
      exact if_neg fun hx => hg ⟨hx.1, hx.2.1⟩
  · intro h
    have hg : task.TotalLength ≠ "0" ∧ task.CompletedLength ≠ "0" :=
      ⟨fun hT => h (Or.inr hT), fun hC => h (Or.inl hC)⟩
    unfold createTaskItemForData
    simp only []
    rw [if_pos hg]

/-- C25 at a total of 1048576 with nothing completed, which shows "0 B / 0 B"
where the two numbers formatted would give "0 B / 1.0 MB", and at 512 completed
of 1024. -/
theorem sizeText_zero_guard_witness :
    ((createTaskItemForData { TotalLength := "1048576", CompletedLength := "0" }).sizeText
        = "0 B / 0 B" ∧
      (createTaskItemForData { TotalLength := "1048576", CompletedLength := "0" }).progress
        = .fin false 0) ∧
    formatSize (parseFloat64 "0") ++ " / " ++ formatSize (parseFloat64 "1048576")
      = "0 B / 1.0 MB" ∧
    (createTaskItemForData { TotalLength := "1024", CompletedLength := "512" }).sizeText
      = formatSize (parseFloat64 "512") ++ " / " ++ formatSize (parseFloat64 "1024") ∧
    (createTaskItemForData { TotalLength := "1024", CompletedLength := "512" }).sizeText
      = "512 B / 1.0 KB" :=
  ⟨(sizeText_zero_guard { TotalLength := "1048576", CompletedLength := "0" }).1
      (Or.inl rfl),
    by decide,
    (sizeText_zero_guard { TotalLength := "1024", CompletedLength := "512" }).2 (by decide),
    by decide⟩

/-- C26, refuted as stated: the text "-0" parses to the negative zero, which is
neither below nor above 0, and the speed text is then "-0 B/s", not "0 B/s". -/
theorem speedText_of_negative_zero :
    parseFloat64 "-0" = .fin true 0 ∧
    (parseFloat64 "-0").lt (Float64.ofNat 0) = false ∧
    (Float64.ofNat 0).lt (parseFloat64 "-0") = false ∧
    (parseFloat64 "-0").le (Float64.ofNat 0) = true ∧
    (Float64.ofNat 0).le (parseFloat64 "-0") = true ∧
    (createTaskItemForData { DownloadSpeed := "-0" }).speedText = "-0 B/s" ∧
    (createTaskItemForData { DownloadSpeed := "-0" }).speedText ≠ "0 B/s" := by
  decide

/-- C26, amended: for every text `s` of the download speed, the speed text is
formatSpeed of parseFloat64 of `s`, so the guard on the text "0" changes
nothing; it is "0 B/s" for every `s` that parses to the zero without sign
("0", "", "abc"), and "-0 B/s" for every `s` that parses to the negative
zero. -/
theorem speedText_eq_formatSpeed (task : TellStatus) :
    (createTaskItemForData task).speedText = formatSpeed (parseFloat64 task.DownloadSpeed) ∧
    (parseFloat64 task.DownloadSpeed = .fin false 0 →
      (createTaskItemForData task).speedText = "0 B/s") ∧
    (parseFloat64 task.DownloadSpeed = .fin true 0 →
      (createTaskItemForData task).speedText = "-0 B/s") := by
  have h0 : parseFloat64 "0" = .fin false 0 := by decide
  have hp : formatSpeed (.fin false 0) = "0 B/s" := by decide
  have hn : formatSpeed (.fin true 0) = "-0 B/s" := by decide
  have key : (createTaskItemForData task).speedText
      = formatSpeed (parseFloat64 task.DownloadSpeed) := by
    unfold createTaskItemForData
    by_cases hs : task.DownloadSpeed = "0"
    · simp only [hs, ne_eq, not_true_eq_false, ↓reduceIte, h0, hp]
    · simp only [ne_eq, hs, not_false_eq_true, ↓reduceIte]
  refine ⟨key, ?_, ?_⟩
  · intro h
    rw [key, h, hp]
  · intro h
    rw [key, h, hn]

/-- C26 amended, at the texts "0", "", "abc" and "-0.0". -/
theorem speedText_eq_formatSpeed_witness :
    (createTaskItemForData { DownloadSpeed := "0" }).speedText = "0 B/s" ∧
    (createTaskItemForData { DownloadSpeed := "" }).speedText = "0 B/s" ∧
    (createTaskItemForData { DownloadSpeed := "abc" }).speedText = "0 B/s" ∧
    (createTaskItemForData { DownloadSpeed := "-0.0" }).speedText = "-0 B/s" ∧
    (createTaskItemForData { DownloadSpeed := "1536" }).speedText
      = formatSpeed (parseFloat64 "1536") :=
  ⟨(speedText_eq_formatSpeed { DownloadSpeed := "0" }).2.1 (by decide),
    (speedText_eq_formatSpeed { DownloadSpeed := "" }).2.1 (by decide),
    (speedText_eq_formatSpeed { DownloadSpeed := "abc" }).2.1 (by decide),
    (speedText_eq_formatSpeed { DownloadSpeed := "-0.0" }).2.2 (by decide),
    (speedText_eq_formatSpeed { DownloadSpeed := "1536" }).1⟩

/-- C27: the number is rounded after the unit is chosen, so it can show the
threshold of the next unit: 1048575, which lies from 1024 to below 1024², is
printed "1024.0 KB" by formatSize and "1024.0 KB/s" by formatSpeed, and
1073741823, which lies from 1024² to below 1024³, is printed "1024.0 MB"; for
every integer `b` below 1024 that a float64 holds, formatSize prints the decimal
digits of `b` followed by " B". -/
theorem formatSize_rounds_after_unit :
    (Float64.ofInt? 1048575 = some (Float64.ofNat 1048575) ∧
      formatSize (Float64.ofNat 1048575) = "1024.0 KB" ∧
      formatSpeed (Float64.ofNat 1048575) = "1024.0 KB/s") ∧
    (Float64.ofInt? 1073741823 = some (Float64.ofNat 1073741823) ∧
      formatSize (Float64.ofNat 1073741823) = "1024.0 MB") ∧
    (∀ (b : Int) (x : Float64), b < 1024 → Float64.ofInt? b = some x →
      formatSize x = toString b ++ " B") := by
  refine ⟨by decide, by decide, ?_⟩
  intro b x hb hx
  unfold Float64.ofInt? at hx
  split_ifs at hx with hexact
  cases hx
  unfold formatSize
  rw [if_pos (Float64.whole_lt_1024 b hb), fmtFixed_zero_whole]
  cases b with
  | ofNat n =>
    have hn : ¬ ((Int.ofNat n) < 0) := not_lt.2 (Int.ofNat_nonneg n)
    simp only [hn, decide_False, Bool.false_eq_true, ↓reduceIte, Int.natAbs_ofNat,
      String.empty_append]
    rfl
  | negSucc n =>
    have hn : Int.negSucc n < 0 := Int.negSucc_lt_zero n
    simp only [hn, decide_True, ↓reduceIte, Int.natAbs_negSucc]
    rfl

/-- C27 at the integers 1023, 0 and -5. -/
theorem formatSize_rounds_after_unit_witness :
    formatSize (Float64.ofNat 1023) = "1023 B" ∧
    formatSize (Float64.ofNat 0) = "0 B" ∧
    formatSize (.fin true (5 * Float64.one)) = "-5 B" :=
  ⟨formatSize_rounds_after_unit.2.2 1023 (Float64.ofNat 1023) (by decide) (by decide),
    formatSize_rounds_after_unit.2.2 0 (Float64.ofNat 0) (by decide) (by decide),
    formatSize_rounds_after_unit.2.2 (-5) (.fin true (5 * Float64.one)) (by decide)
      (by decide)⟩

end Aria2GoUI
